import Mathlib

/-!
# Setfarm medic and cron lifecycle — a shallow embedding

This file embeds, in Lean, the parts of the `setfarm` engine that the medic
watchdog and the cron lifecycle exercise:

* the database rows for runs, steps and stories (SQLite tables),
* the medic health checks (`checkStuckSteps`, `checkStalledRuns`,
  `checkDeadRuns`, `checkFailedRunsForResume`, `checkOrphanedStories`),
* the medic remediation dispatcher (`remediate`), including the
  "Medic v6" GitHub merged-PR guard (`extractRepoUrl`, `checkMergedPR`),
* the cron gateway lifecycle (`setupAgentCrons`, `ensureWorkflowCrons`,
  `teardownWorkflowCronsIfIdle`).

Timestamps are modelled as milliseconds since the epoch (`Nat`); SQLite's
`(julianday('now') - julianday(t)) * 86400000` is exactly the age in
milliseconds, and `datetime('now')` writes the current instant.  Subtraction
on `Nat` truncates at zero, which agrees with the SQL comparisons used here:
a negative age is never `>` a positive threshold, and is always `<` one.

External effects are explicit parameters: the result of the `gh pr list`
shell-out, the loadable workflow specs, and the cron-tool preflight are
fields of `MedicEnv`; the cron gateway's job list is part of the state.
-/

namespace Setfarm

/-! ## JS string primitives

The source is TypeScript; these model the exact JS string operations it
uses (`startsWith`, `includes`, `slice(0, n)`, `toLowerCase` on ASCII,
`replace(/_/g, "-")`). -/

/-- JS `p.isPrefixOf`-style check: `s.startsWith (pre)`. -/
def jsStartsWith (s p : String) : Bool := p.data.isPrefixOf s.data

/-- Substring containment over char lists. -/
def listContainsSub (needle : List Char) : List Char → Bool
  | [] => needle.isEmpty
  | c :: rest => needle.isPrefixOf (c :: rest) || listContainsSub needle rest

/-- JS `s.includes(sub)`. -/
def jsIncludes (s sub : String) : Bool := listContainsSub sub.data s.data

/-- JS `s.slice(0, n)`. -/
def jsSlice (s : String) (n : Nat) : String := ⟨s.data.take n⟩

/-- JS `s.toLowerCase()` restricted to ASCII, which is all the engine feeds it. -/
def jsToLower (s : String) : String := ⟨s.data.map Char.toLower⟩

/-- JS `s.replace(/_/g, "-")` — the pattern is a single character, so this is
a character-wise substitution. -/
def jsReplaceUnderscore (s : String) : String :=
  ⟨s.data.map (fun c => if c == '_' then '-' else c)⟩

/-! ## Data model (SQLite rows) -/

/-- A row of the `runs` table.  `meta` is a JSON column in SQLite holding the
medic's resume bookkeeping; it is modelled structurally, with `none` for an
absent key (or an entirely `NULL` column). -/
structure RunMeta where
  medic_resume_count : Option Nat
  medic_last_resume : Option Nat
  deriving DecidableEq, Repr

structure RunRow where
  id : String
  workflow_id : String
  task : String
  status : String
  created_at : Nat
  updated_at : Nat
  meta : RunMeta
  deriving DecidableEq, Repr

/-- The parsed `loop_config` JSON of a loop step (the fields `remediate`
reads). -/
structure LoopCfg where
  verifyEach : Bool
  verifyStep : Option String
  deriving DecidableEq, Repr

/-- A row of the `steps` table.  `typ` is the column named `type` in SQL. -/
structure StepRow where
  id : String
  run_id : String
  step_id : String
  agent_id : String
  step_index : Nat
  typ : String
  status : String
  retry_count : Nat
  abandoned_count : Nat
  updated_at : Nat
  input : String
  output : String
  loop_config : Option LoopCfg
  current_story_id : Option String
  deriving DecidableEq, Repr

/-- A row of the `stories` table. -/
structure StoryRow where
  id : String
  run_id : String
  story_id : String
  story_index : Nat
  title : String
  status : String
  input : String
  output : String
  abandoned_count : Nat
  updated_at : Nat
  deriving DecidableEq, Repr

structure Db where
  runs : List RunRow
  steps : List StepRow
  stories : List StoryRow
  deriving DecidableEq, Repr

/-- A cron job as seen through the gateway's `listCronJobs`. -/
structure CronJob where
  id : String
  name : String
  deriving DecidableEq, Repr

/-- The engine-visible system state: the database plus the external
scheduler's job list. -/
structure SysState where
  db : Db
  crons : List CronJob
  deriving DecidableEq, Repr

/-! ## Medic findings -/

inductive MedicAction where
  | reset_step
  | fail_run
  | resume_run
  | teardown_crons
  | reset_story
  | recreate_crons
  | none
  deriving DecidableEq, Repr

/-- A medic finding.  The human-readable `message` text is elided (set to
`""` by the checks) except that `remediate` parses it in its
`teardown_crons` case, mirroring the source. -/
structure Finding where
  check : String
  severity : String
  message : String
  action : MedicAction
  runId : Option String
  stepId : Option String
  storyId : Option String
  workflowId : Option String
  remediated : Bool
  deriving DecidableEq, Repr

/-! ## Thresholds (constants from the source) -/

/-- `MAX_ROLE_TIMEOUT_MS = (getMaxRoleTimeoutSeconds() + 5 * 60) * 1000`.
`getMaxRoleTimeoutSeconds` is configuration, kept as the parameter `mt`. -/
def maxRoleTimeoutMs (mt : Nat) : Nat := (mt + 5 * 60) * 1000

/-- `STALL_THRESHOLD_MS = MAX_ROLE_TIMEOUT_MS * 2`. -/
def stallThresholdMs (mt : Nat) : Nat := maxRoleTimeoutMs mt * 2

def RESUME_MAX_ATTEMPTS : Nat := 3

/-- 10 min cooldown between medic resumes. -/
def RESUME_COOLDOWN_MS : Nat := 10 * 60 * 1000

/-- 30 minutes — matches agent timeout. -/
def STORY_STUCK_THRESHOLD_MS : Nat := 30 * 60 * 1000

/-! ## Row lookups (SQL `WHERE id = ?` with `id` a primary key) -/

def runningRunOf (db : Db) (rid : String) : Bool :=
  match db.runs.find? (fun r => r.id == rid) with
  | some r => r.status == "running"
  | Option.none => false

def resumeCountOf (r : RunRow) : Nat := r.meta.medic_resume_count.getD 0

def lastResumeOf (r : RunRow) : Nat := r.meta.medic_last_resume.getD 0

/-! ## Medic checks -/

/-- The finding `checkStuckSteps` pushes for a stuck step. -/
def stuckStepFinding (s : StepRow) : Finding :=
  { check := "stuck_steps", severity := "warning", message := "",
    action := MedicAction.reset_step, runId := some s.run_id,
    stepId := some s.id, storyId := Option.none, workflowId := Option.none,
    remediated := false }

/-- `checkStuckSteps`: steps `running` in a `running` run whose age exceeds
`MAX_ROLE_TIMEOUT_MS`. -/
def checkStuckSteps (mt now : Nat) (db : Db) : List Finding :=
  db.steps.filterMap fun s =>
    if s.status == "running" && runningRunOf db s.run_id
        && decide (now - s.updated_at > maxRoleTimeoutMs mt) then
      some (stuckStepFinding s)
    else Option.none

def stalledRunFinding (r : RunRow) : Finding :=
  { check := "stalled_runs", severity := "critical", message := "",
    action := MedicAction.none, runId := some r.id,
    stepId := Option.none, storyId := Option.none, workflowId := Option.none,
    remediated := false }

/-- `MAX(s.updated_at)` over a run's steps. -/
def maxStepUpdate (ss : List StepRow) : Nat :=
  ss.foldl (fun a s => Nat.max a s.updated_at) 0

/-- `checkStalledRuns`: running runs (that have steps — the SQL is an inner
join grouped by run) whose most recent step update is older than
`2 * MAX_ROLE_TIMEOUT_MS`.  Alert only. -/
def checkStalledRuns (mt now : Nat) (db : Db) : List Finding :=
  db.runs.filterMap fun r =>
    let ss := db.steps.filter (fun s => s.run_id == r.id)
    if r.status == "running" && !ss.isEmpty
        && decide (now - maxStepUpdate ss > stallThresholdMs mt) then
      some (stalledRunFinding r)
    else Option.none

def deadRunFinding (r : RunRow) : Finding :=
  { check := "dead_runs", severity := "critical", message := "",
    action := MedicAction.fail_run, runId := some r.id,
    stepId := Option.none, storyId := Option.none, workflowId := Option.none,
    remediated := false }

/-- `checkDeadRuns`: runs marked `running` with no step left in
`waiting`/`pending`/`running`. -/
def checkDeadRuns (db : Db) : List Finding :=
  db.runs.filterMap fun r =>
    if r.status == "running"
        && !(db.steps.any fun s =>
              s.run_id == r.id
              && (s.status == "waiting" || s.status == "pending"
                  || s.status == "running")) then
      some (deadRunFinding r)
    else Option.none

def resumeFinding (r : RunRow) : Finding :=
  { check := "failed_run_resumable", severity := "warning", message := "",
    action := MedicAction.resume_run, runId := some r.id,
    stepId := Option.none, storyId := Option.none, workflowId := Option.none,
    remediated := false }

/-- `checkFailedRunsForResume`: failed runs with pending/running stories,
below the resume budget, past the 10-min cooldown, and untouched for at
least 2 minutes. -/
def checkFailedRunsForResume (now : Nat) (db : Db) : List Finding :=
  db.runs.filterMap fun r =>
    if r.status == "failed"
        && (db.stories.any fun t =>
              t.run_id == r.id
              && (t.status == "pending" || t.status == "running")) then
      if resumeCountOf r ≥ RESUME_MAX_ATTEMPTS then Option.none
      else if !(decide (now - lastResumeOf r > RESUME_COOLDOWN_MS)) then Option.none
      else if now - r.updated_at < 2 * 60 * 1000 then Option.none
      else some (resumeFinding r)
    else Option.none

def orphanedStoryFinding (t : StoryRow) : Finding :=
  { check := "orphaned_stories", severity := "warning", message := "",
    action := MedicAction.reset_story, runId := some t.run_id,
    stepId := Option.none, storyId := some t.id, workflowId := Option.none,
    remediated := false }

/-- `checkOrphanedStories` (#225): stories stuck in `running` in a running
run for longer than `STORY_STUCK_THRESHOLD_MS`. -/
def checkOrphanedStories (now : Nat) (db : Db) : List Finding :=
  db.stories.filterMap fun t =>
    if t.status == "running" && runningRunOf db t.run_id
        && decide (now - t.updated_at > STORY_STUCK_THRESHOLD_MS) then
      some (orphanedStoryFinding t)
    else Option.none

/-! ## GitHub PR guard (Medic v6) -/

/-- JS `\w` for ASCII input. -/
def isWordCharJs (c : Char) : Bool := c.isAlpha || c.isDigit || c == '_'

def ownerChar (c : Char) : Bool := isWordCharJs c || c == '-'

def repoChar (c : Char) : Bool := isWordCharJs c || c == '.' || c == '-'

def ghLit : List Char := "https://github.com/".data

/-- Try the tail of the regex `[\w-]+\/[\w.-]+` at a position just past the
literal `https://github.com/`; greedy matching of these character classes
never needs backtracking because `/` is in neither class. -/
def matchRepoTail (l : List Char) : Option (List Char) :=
  let owner := l.takeWhile ownerChar
  if owner.isEmpty then Option.none
  else
    match l.drop owner.length with
    | '/' :: rest =>
      let repo := rest.takeWhile repoChar
      if repo.isEmpty then Option.none else some (ghLit ++ owner ++ '/' :: repo)
    | _ => Option.none

/-- Leftmost match of `https:\/\/github\.com\/[\w-]+\/[\w.-]+`. -/
def scanRepo : List Char → Option (List Char)
  | [] => Option.none
  | c :: rest =>
    if ghLit.isPrefixOf (c :: rest) then
      match matchRepoTail ((c :: rest).drop ghLit.length) with
      | some m => some m
      | Option.none => scanRepo rest
    else scanRepo rest

/-- `extractRepoUrl`: first GitHub repo URL occurring in a run's task. -/
def extractRepoUrl (task : String) : Option String :=
  (scanRepo task.data).map fun l => ⟨l⟩

/-- A merged PR as returned by `gh pr list --json number,url,headRefName`. -/
structure PrInfo where
  number : Nat
  url : String
  headRefName : String
  deriving DecidableEq, Repr

/-- `checkMergedPR`: first merged PR whose branch matches the story id or the
run-id prefix.  The repo URL only selects which repository `gh` queries (the
query result is the `prs` argument), so it plays no part in the matching. -/
def checkMergedPR (prs : List PrInfo) (_repoUrl storyId runId : String) :
    Option String :=
  let runPre : String := jsSlice runId 8
  let storyLower : String := jsReplaceUnderscore (jsToLower storyId)
  (prs.find? fun pr =>
    let branch := jsToLower pr.headRefName
    branch == storyLower
    || jsIncludes branch ("-" ++ storyLower)
    || jsIncludes branch ("/" ++ storyLower)
    || jsStartsWith branch (runPre ++ "-")
    || jsStartsWith branch (jsToLower runPre ++ "-")).map (·.url)

/-! ## Cron gateway lifecycle (`agent-cron.ts`) -/

def DEFAULT_EVERY_MS : Nat := 300000

def DEFAULT_AGENT_TIMEOUT_SECONDS : Nat := 30 * 60

def DEFAULT_POLLING_MODEL : String := "minimax/MiniMax-M2.5"

def PARALLEL_AGENTS : List String := ["developer", "verifier"]

def PARALLEL_COUNT : Nat := 3

/-- A workflow's `agent_mapping` entry maps a role to one OpenClaw agent id
or to an array of them. -/
inductive MappingVal where
  | single (s : String)
  | multi (l : List String)
  deriving DecidableEq, Repr

structure AgentSpec where
  id : String
  model : Option String
  pollingModel : Option String
  timeoutSeconds : Option Nat
  deriving DecidableEq, Repr

structure WorkflowSpec where
  id : String
  agents : List AgentSpec
  /-- `(workflow as any).cron?.interval_ms` -/
  cronIntervalMs : Option Nat
  /-- `workflow.polling?.model` -/
  pollingModel : Option String
  agentMapping : List (String × MappingVal)
  deriving DecidableEq, Repr

/-- One `createAgentCronJob` request (the prompt text is elided; it is a
fixed template over `workflowId`/`agentId`). -/
structure CronJobSpec where
  name : String
  everyMs : Nat
  anchorMs : Nat
  agentId : String
  model : String
  timeoutSeconds : Nat
  deriving DecidableEq, Repr

def lookupMapping (m : List (String × MappingVal)) (k : String) :
    Option MappingVal :=
  (m.find? fun p => p.fst == k).map (·.snd)

/-- The cron jobs `setupAgentCrons` creates for the agent at position `i` of
the workflow's agent list: the role's main job, plus — for `developer` and
`verifier` — shards `2..PARALLEL_COUNT` round-robined over the mapped agent
ids.  (For an empty mapping array JS would pass `undefined` as the agent id;
the model falls back to the unmapped id, a state no installed workflow
produces.) -/
def jobsForAgent (wf : WorkflowSpec) (i : Nat) (agent : AgentSpec) :
    List CronJobSpec :=
  let everyMs := wf.cronIntervalMs.getD DEFAULT_EVERY_MS
  let anchorMs := i * 40000
  let cronName := "setfarm/" ++ wf.id ++ "/" ++ agent.id
  let rawMappedId := lookupMapping wf.agentMapping agent.id
  let mappedAgentId : Option String :=
    match rawMappedId with
    | some (MappingVal.multi l) => l.head?
    | some (MappingVal.single s) => some s
    | Option.none => Option.none
  let cronAgentId := mappedAgentId.getD (wf.id ++ "_" ++ agent.id)
  let model :=
    agent.model.getD (agent.pollingModel.getD
      (wf.pollingModel.getD DEFAULT_POLLING_MODEL))
  let timeoutSeconds := agent.timeoutSeconds.getD DEFAULT_AGENT_TIMEOUT_SECONDS
  let mainJob : CronJobSpec :=
    ⟨cronName, everyMs, anchorMs, cronAgentId, model, timeoutSeconds⟩
  let shards : List CronJobSpec :=
    if PARALLEL_AGENTS.contains agent.id then
      let allAgents : List String :=
        match rawMappedId with
        | some (MappingVal.multi l) => l
        | some (MappingVal.single s) => [s]
        | Option.none => [cronAgentId]
      (List.range' 2 (PARALLEL_COUNT - 1)).map fun n =>
        let agentForCron := (allAgents.get? ((n - 1) % allAgents.length)).getD cronAgentId
        ⟨cronName ++ "-" ++ toString n, everyMs, anchorMs + n * 40000,
          agentForCron, model, timeoutSeconds⟩
    else []
  mainJob :: shards

/-- The full sequence of cron-job creation requests `setupAgentCrons` makes. -/
def setupAgentCronJobs (wf : WorkflowSpec) : List CronJobSpec :=
  (wf.agents.enum.map fun p => jobsForAgent wf p.fst p.snd).flatten

/-- `setupAgentCrons` as a transition of the gateway's job list (the gateway
assigns opaque ids; the model uses the — unique — job name as the id). -/
def setupAgentCrons (wf : WorkflowSpec) (crons : List CronJob) : List CronJob :=
  crons ++ (setupAgentCronJobs wf).map fun j => ⟨j.name, j.name⟩

/-- `deleteAgentCronJobs` with the workflow name prefix — `removeAgentCrons`. -/
def removeAgentCrons (wfId : String) (crons : List CronJob) : List CronJob :=
  crons.filter fun j => !(jsStartsWith j.name ("setfarm/" ++ wfId ++ "/"))

def workflowCronsExist (wfId : String) (crons : List CronJob) : Bool :=
  crons.any fun j => jsStartsWith j.name ("setfarm/" ++ wfId ++ "/")

/-- `ensureWorkflowCrons`: no-op when jobs for the workflow already exist;
otherwise the cron-tool preflight must pass (else the call throws, modelled
as `none`), then `setupAgentCrons` runs. -/
def ensureWorkflowCrons (preflightOk : Bool) (wf : WorkflowSpec)
    (crons : List CronJob) : Option (List CronJob) :=
  if workflowCronsExist wf.id crons then some crons
  else if preflightOk then some (setupAgentCrons wf crons) else Option.none

def countActiveRuns (db : Db) (wfId : String) : Nat :=
  (db.runs.filter fun r => r.workflow_id == wfId && r.status == "running").length

/-- `teardownWorkflowCronsIfIdle`: delete the workflow's jobs only when it
has no running run. -/
def teardownWorkflowCronsIfIdle (db : Db) (wfId : String)
    (crons : List CronJob) : List CronJob :=
  if countActiveRuns db wfId > 0 then crons
  else crons.filter fun j => !(jsStartsWith j.name ("setfarm/" ++ wfId ++ "/"))

/-! ## Remediation (`remediate` in the medic runner) -/

/-- The medic's external collaborators: the merged-PR list returned by the
`gh` shell-out (`none` when `gh` is unavailable or errors — the source
catches and falls through), the loadable workflow specs, and the cron-tool
preflight used by `ensureWorkflowCrons`. -/
structure MedicEnv where
  gh : Option (List PrInfo)
  wfSpecs : String → Option WorkflowSpec
  preflightOk : Bool

/-- Pointwise `UPDATE steps SET … WHERE p`. -/
def updSteps (p : StepRow → Bool) (g : StepRow → StepRow) (db : Db) : Db :=
  { db with steps := db.steps.map fun s => if p s then g s else s }

/-- Pointwise `UPDATE runs SET … WHERE p`. -/
def updRuns (p : RunRow → Bool) (g : RunRow → RunRow) (db : Db) : Db :=
  { db with runs := db.runs.map fun r => if p r then g r else r }

/-- Pointwise `UPDATE stories SET … WHERE p`. -/
def updStories (p : StoryRow → Bool) (g : StoryRow → StoryRow) (db : Db) : Db :=
  { db with stories := db.stories.map fun t => if p t then g t else t }

/-- `SELECT … ORDER BY step_index ASC LIMIT 1` (ties resolve to the earlier
row). -/
def minByStepIndex : List StepRow → Option StepRow
  | [] => Option.none
  | s :: rest =>
    match minByStepIndex rest with
    | Option.none => some s
    | some m => if m.step_index < s.step_index then some m else some s

/-- `SELECT … ORDER BY story_index ASC LIMIT 1`. -/
def minByStoryIndex : List StoryRow → Option StoryRow
  | [] => Option.none
  | t :: rest =>
    match minByStoryIndex rest with
    | Option.none => some t
    | some m => if m.story_index < t.story_index then some m else some t

/-- The regex `/workflow "([^"]+)"/` used by the `teardown_crons` case on a
finding's message: the capture after the first occurrence of `workflow "`,
which must be non-empty and closed by `"`. -/
def parseWorkflowFromMessage (msg : String) : Option String :=
  (go msg.data).map fun l => ⟨l⟩
where
  lit : List Char := "workflow \"".data
  go : List Char → Option (List Char)
    | [] => Option.none
    | c :: rest =>
      if lit.isPrefixOf (c :: rest) then
        let after := (c :: rest).drop lit.length
        let cap := after.takeWhile (fun d => !(d == '"'))
        if cap.isEmpty then go rest
        else if (after.drop cap.length).head? == some '"' then some cap
        else go rest
      else go rest

/-- The Medic v6 PR guard inside the `reset_story` case: with the story row
re-read (`storyMeta`) and the run's task (`runMeta`), extract the repo URL
and ask `gh` for a matching merged PR. -/
def prGuardUrl (env : MedicEnv) (storyMeta : Option StoryRow)
    (runMeta : Option RunRow) (story : StoryRow) : Option String :=
  match storyMeta, runMeta with
  | some sm, some rm =>
    match extractRepoUrl rm.task with
    | some repoUrl =>
      match env.gh with
      | some prs => checkMergedPR prs repoUrl sm.story_id story.run_id
      | Option.none => Option.none
    | Option.none => Option.none
  | _, _ => Option.none

/-- The `else` branch of `resume_run` (no loop step with a `loop_config`):
if the failed step is itself a loop, reset its first failed story and clear
`retry_count` on all loop steps; then reset the failed step to `pending`. -/
def resumeElseBranch (now : Nat) (runId : String) (failedStep : StepRow)
    (db : Db) : Db :=
  let db1 :=
    if failedStep.typ == "loop" then
      let db0 :=
        match minByStoryIndex (db.stories.filter fun t =>
            t.run_id == runId && t.status == "failed") with
        | some fs =>
          updStories (fun t => t.id == fs.id)
            (fun t => { t with status := "pending", updated_at := now }) db
        | Option.none => db
      updSteps (fun s => s.run_id == runId && s.typ == "loop")
        (fun s => { s with retry_count := 0 }) db0
    else db
  updSteps (fun s => s.id == failedStep.id)
    (fun s => { s with
      status := "pending", current_story_id := Option.none,
      retry_count := 0, updated_at := now }) db1

/-- The medic remediation dispatcher.  Returns the new state and whether an
action was taken. -/
def remediate (env : MedicEnv) (now : Nat) (f : Finding) (st : SysState) :
    SysState × Bool :=
  match f.action with
  | MedicAction.reset_step =>
    match f.stepId with
    | Option.none => (st, false)
    | some sid =>
      match st.db.steps.find? (fun s => s.id == sid) with
      | Option.none => (st, false)
      | some step =>
        let newCount := step.abandoned_count + 1
        if newCount ≥ 5 then
          let db1 := updSteps (fun s => s.id == sid)
            (fun s => { s with
              status := "failed",
              output := "Medic: abandoned too many times",
              abandoned_count := newCount, updated_at := now }) st.db
          let db2 :=
            match f.runId with
            | some rid =>
              updRuns (fun r => r.id == rid)
                (fun r => { r with status := "failed", updated_at := now }) db1
            | Option.none => db1
          ({ st with db := db2 }, true)
        else
          -- SAFEGUARD_194: medic resets use ONLY abandoned_count, NEVER retry_count.
          let db1 := updSteps (fun s => s.id == sid)
            (fun s => { s with
              status := "pending",
              abandoned_count := newCount, updated_at := now }) st.db
          ({ st with db := db1 }, true)
  | MedicAction.fail_run =>
    match f.runId with
    | Option.none => (st, false)
    | some rid =>
      match st.db.runs.find? (fun r => r.id == rid) with
      | Option.none => (st, false)
      | some run =>
        if run.status == "running" then
          let db1 := updRuns (fun r => r.id == rid)
            (fun r => { r with status := "failed", updated_at := now }) st.db
          let db2 := updSteps
            (fun s => s.run_id == rid
              && (s.status == "waiting" || s.status == "pending"
                  || s.status == "running"))
            (fun s => { s with
              status := "failed",
              output := "Medic: run marked as dead",
              updated_at := now }) db1
          ({ db := db2,
             crons := teardownWorkflowCronsIfIdle db2 run.workflow_id st.crons },
            true)
        else (st, false)
  | MedicAction.teardown_crons =>
    match parseWorkflowFromMessage f.message with
    | Option.none => (st, false)
    | some wfId =>
      ({ st with crons := teardownWorkflowCronsIfIdle st.db wfId st.crons }, true)
  | MedicAction.resume_run =>
    match f.runId with
    | Option.none => (st, false)
    | some rid =>
      match st.db.runs.find? (fun r => r.id == rid && r.status == "failed") with
      | Option.none => (st, false)
      | some run =>
        match minByStepIndex (st.db.steps.filter fun s =>
            s.run_id == run.id && s.status == "failed") with
        | Option.none => (st, false)
        | some failedStep =>
          let loopStep := st.db.steps.find? fun s =>
            s.run_id == run.id && s.typ == "loop"
            && (s.status == "running" || s.status == "failed")
          let db1 :=
            match loopStep with
            | some ls =>
              match ls.loop_config with
              | some lc =>
                -- `if (loopStep?.loop_config)`: when the inner verify-each
                -- test fails, NEITHER branch's updates run.
                if lc.verifyEach && lc.verifyStep == some failedStep.step_id then
                  let dA := updSteps (fun s => s.id == ls.id)
                    (fun s => { s with
                      status := "pending",
                      current_story_id := Option.none,
                      retry_count := 0, updated_at := now }) st.db
                  let dB := updSteps (fun s => s.id == failedStep.id)
                    (fun s => { s with
                      status := "waiting",
                      current_story_id := Option.none,
                      retry_count := 0, updated_at := now }) dA
                  updStories (fun t => t.run_id == run.id && t.status == "failed")
                    (fun t => { t with status := "pending", updated_at := now }) dB
                else st.db
              | Option.none => resumeElseBranch now run.id failedStep st.db
            | Option.none => resumeElseBranch now run.id failedStep st.db
          let db2 := updRuns (fun r => r.id == run.id)
            (fun r => { r with status := "running", updated_at := now }) db1
          let newMeta : RunMeta :=
            { medic_resume_count := some (resumeCountOf run + 1),
              medic_last_resume := some now }
          let db3 := updRuns (fun r => r.id == run.id)
            (fun r => { r with meta := newMeta }) db2
          let crons1 :=
            match env.wfSpecs run.workflow_id with
            | some wf =>
              match ensureWorkflowCrons env.preflightOk wf st.crons with
              | some c => c
              | Option.none => st.crons
            | Option.none => st.crons
          ({ db := db3, crons := crons1 }, true)
  | MedicAction.reset_story =>
    match f.storyId with
    | Option.none => (st, false)
    | some tid =>
      match st.db.stories.find? (fun t => t.id == tid && t.status == "running") with
      | Option.none => (st, false)
      | some story =>
        let storyMeta := st.db.stories.find? fun t => t.id == tid
        let runMeta := st.db.runs.find? fun r => r.id == story.run_id
        match prGuardUrl env storyMeta runMeta story with
        | some prUrl =>
          -- Medic v6 GitHub PR guard: the agent already merged a PR —
          -- auto-verify instead of wasting another cycle.
          let db1 := updStories (fun t => t.id == tid)
            (fun t => { t with
              status := "verified", abandoned_count := 0,
              output := "STATUS: done\nPR_URL: " ++ prUrl
                ++ "\nCHANGES: Auto-verified by Medic v6 — merged PR detected on GitHub",
              updated_at := now }) st.db
          let db2 := updSteps
            (fun s => s.run_id == story.run_id && s.typ == "loop"
              && s.current_story_id == some tid)
            (fun s => { s with
              current_story_id := Option.none,
              updated_at := now }) db1
          ({ st with db := db2 }, true)
        | Option.none =>
          let newCount := story.abandoned_count + 1
          if newCount ≥ 5 then
            let db1 := updStories (fun t => t.id == tid)
              (fun t => { t with
                status := "skipped",
                abandoned_count := newCount,
                output := "Medic: abandoned too many times",
                updated_at := now }) st.db
            ({ st with db := db1 }, true)
          else
            -- Reset to pending for retry (uses abandoned_count, NOT retry_count).
            let db1 := updStories (fun t => t.id == tid)
              (fun t => { t with
                status := "pending",
                abandoned_count := newCount, updated_at := now }) st.db
            let db2 := updSteps
              (fun s => s.run_id == story.run_id && s.typ == "loop"
                && s.current_story_id == some tid)
              (fun s => { s with
                current_story_id := Option.none,
                updated_at := now }) db1
            ({ st with db := db2 }, true)
  | MedicAction.recreate_crons =>
    match f.workflowId.orElse fun _ => parseWorkflowFromMessage f.message with
    | Option.none => (st, false)
    | some wfId =>
      let crons1 := removeAgentCrons wfId st.crons
      match env.wfSpecs wfId with
      | some wf => ({ st with crons := setupAgentCrons wf crons1 }, true)
      | Option.none =>
        -- loadWorkflowSpec threw after the removal; caught → `false`.
        ({ st with crons := crons1 }, false)
  | MedicAction.none => (st, false)

/-! ## Proof infrastructure -/

theorem jsStartsWith_append (p r : String) : jsStartsWith (p ++ r) p = true := by
  simp [jsStartsWith, String.data_append, List.isPrefixOf_iff_prefix,
    List.prefix_append]

theorem find?_updRuns_id (db : Db) (p : RunRow → Bool) (g : RunRow → RunRow)
    (hg : ∀ x, (g x).id = x.id) (rid : String) :
    ((updRuns p g db).runs.find? fun x => x.id == rid)
      = ((db.runs.find? fun x => x.id == rid).map fun x =>
          if p x then g x else x) := by
  simp only [updRuns]
  rw [List.find?_map]
  have hp : ((fun x => x.id == rid) ∘ fun r => if p r then g r else r)
      = fun x => x.id == rid := by
    funext x
    by_cases h : p x <;> simp [h, Function.comp, hg]
  rw [hp]

theorem find?_updStories_id (db : Db) (p : StoryRow → Bool)
    (g : StoryRow → StoryRow) (hg : ∀ x, (g x).id = x.id) (tid : String) :
    ((updStories p g db).stories.find? fun x => x.id == tid)
      = ((db.stories.find? fun x => x.id == tid).map fun x =>
          if p x then g x else x) := by
  simp only [updStories]
  rw [List.find?_map]
  have hp : ((fun x => x.id == tid) ∘ fun t => if p t then g t else t)
      = fun x => x.id == tid := by
    funext x
    by_cases h : p x <;> simp [h, Function.comp, hg]
  rw [hp]

theorem find?_updSteps_id (db : Db) (p : StepRow → Bool)
    (g : StepRow → StepRow) (hg : ∀ x, (g x).id = x.id) (sid : String) :
    ((updSteps p g db).steps.find? fun x => x.id == sid)
      = ((db.steps.find? fun x => x.id == sid).map fun x =>
          if p x then g x else x) := by
  simp only [updSteps]
  rw [List.find?_map]
  have hp : ((fun x => x.id == sid) ∘ fun s => if p s then g s else s)
      = fun x => x.id == sid := by
    funext x
    by_cases h : p x <;> simp [h, Function.comp, hg]
  rw [hp]

@[simp] theorem runs_updSteps (db : Db) (p g) : (updSteps p g db).runs = db.runs := rfl

@[simp] theorem stories_updSteps (db : Db) (p g) :
    (updSteps p g db).stories = db.stories := rfl

@[simp] theorem runs_updStories (db : Db) (p g) :
    (updStories p g db).runs = db.runs := rfl

@[simp] theorem steps_updStories (db : Db) (p g) :
    (updStories p g db).steps = db.steps := rfl

@[simp] theorem steps_updRuns (db : Db) (p g) : (updRuns p g db).steps = db.steps := rfl

@[simp] theorem stories_updRuns (db : Db) (p g) :
    (updRuns p g db).stories = db.stories := rfl

/-- `find?` returns the unique element satisfying the predicate. -/
theorem find?_eq_of_unique {α : Type} (l : List α) (p : α → Bool) (a : α)
    (ha : a ∈ l) (hpa : p a = true)
    (huniq : ∀ b ∈ l, p b = true → b = a) :
    l.find? p = some a := by
  induction l with
  | nil => cases ha
  | cons b t ih =>
    rw [List.find?_cons]
    by_cases hpb : p b = true
    · rw [hpb]
      exact congrArg some (huniq b (List.mem_cons_self _ _) hpb)
    · rw [Bool.eq_false_iff.mpr hpb]
      rcases List.mem_cons.mp ha with rfl | hat
      · exact absurd hpa hpb
      · exact ih hat fun c hc hpc => huniq c (List.mem_cons_of_mem _ hc) hpc

/-- The `else` branch of a resume touches only steps and stories. -/
theorem runs_resumeElseBranch (now : Nat) (rid : String) (fs : StepRow) (db : Db) :
    (resumeElseBranch now rid fs db).runs = db.runs := by
  simp only [resumeElseBranch, runs_updSteps]
  split
  · split <;> simp
  · rfl

/-- Every cron job `setupAgentCrons` creates is named under the workflow's
`setfarm/<workflow_id>/` prefix. -/
theorem setupAgentCronJobs_prefixed (wf : WorkflowSpec) :
    ∀ j ∈ setupAgentCronJobs wf,
      jsStartsWith j.name ("setfarm/" ++ wf.id ++ "/") = true := by
  intro j hj
  simp only [setupAgentCronJobs, List.mem_flatten, List.mem_map] at hj
  obtain ⟨l, ⟨⟨i, a⟩, _, rfl⟩, hjl⟩ := hj
  simp only [jobsForAgent, List.mem_cons, List.mem_map] at hjl
  have base : ∀ r : String,
      jsStartsWith ("setfarm/" ++ wf.id ++ "/" ++ r) ("setfarm/" ++ wf.id ++ "/") = true := by
    intro r
    have h := jsStartsWith_append ("setfarm/" ++ wf.id ++ "/") r
    simp only [jsStartsWith, String.data_append, List.append_assoc] at h ⊢
    exact h
  rcases hjl with rfl | hsh
  · exact base a.id
  · split at hsh
    · simp only [List.mem_map] at hsh
      obtain ⟨n, _, rfl⟩ := hsh
      have h2 := base (a.id ++ ("-" ++ toString n))
      simpa [String.append_assoc] using h2
    · simp at hsh

/-! ## Claim C9 — cron job naming, interval, parallel count, stagger -/

/-- C9: `setupAgentCrons` names each role's cron job
`setfarm/<workflow_id>/<role>` and parallel shards
`setfarm/<workflow_id>/<role>-<n>` for `n ≥ 2`; the interval defaults to 5
minutes (`DEFAULT_EVERY_MS`) and is overridable per workflow via
`cron.interval_ms`; the parallel roles (`developer`, `verifier`) get
`PARALLEL_COUNT = 3` cron jobs in total; anchors are staggered in fixed
40-second offsets (`i * 40s` for the role at index `i`, plus `n * 40s` for
shard `n`). -/
theorem agent_cron_naming_spec (wf : WorkflowSpec) (i : Nat) (agent : AgentSpec) :
    DEFAULT_EVERY_MS = 5 * 60 * 1000
    ∧ PARALLEL_AGENTS = ["developer", "verifier"]
    ∧ ((jobsForAgent wf i agent).map (fun j => j.name) =
        if PARALLEL_AGENTS.contains agent.id then
          ["setfarm/" ++ wf.id ++ "/" ++ agent.id,
           "setfarm/" ++ wf.id ++ "/" ++ agent.id ++ "-2",
           "setfarm/" ++ wf.id ++ "/" ++ agent.id ++ "-3"]
        else ["setfarm/" ++ wf.id ++ "/" ++ agent.id])
    ∧ ((jobsForAgent wf i agent).map (fun j => j.anchorMs) =
        if PARALLEL_AGENTS.contains agent.id then
          [i * 40000, i * 40000 + 2 * 40000, i * 40000 + 3 * 40000]
        else [i * 40000])
    ∧ ((jobsForAgent wf i agent).map (fun j => j.everyMs) =
        if PARALLEL_AGENTS.contains agent.id then
          [wf.cronIntervalMs.getD DEFAULT_EVERY_MS,
           wf.cronIntervalMs.getD DEFAULT_EVERY_MS,
           wf.cronIntervalMs.getD DEFAULT_EVERY_MS]
        else [wf.cronIntervalMs.getD DEFAULT_EVERY_MS])
    ∧ setupAgentCronJobs wf
        = (wf.agents.enum.map fun p => jobsForAgent wf p.fst p.snd).flatten := by
  have h2 : ("-" ++ toString (2 : Nat)) = "-2" := rfl
  have h3 : ("-" ++ toString (3 : Nat)) = "-3" := rfl
  refine ⟨rfl, rfl, ?_, ?_, ?_, rfl⟩ <;>
    by_cases h : agent.id ∈ PARALLEL_AGENTS <;>
      simp [jobsForAgent, h, PARALLEL_COUNT, List.range', String.append_assoc, h2, h3]

/-! ## Claim C8 — cron creation idempotent, teardown guarded -/

/-- C8: `ensureWorkflowCrons` creates jobs only when no job with the
workflow's `setfarm/<id>/` prefix exists (a second call is a no-op), and
`teardownWorkflowCronsIfIdle` deletes the workflow's jobs only when the
workflow has zero running runs, leaving the job list untouched otherwise. -/
theorem cron_lifecycle_spec (pre : Bool) (wf : WorkflowSpec)
    (crons c1 : List CronJob) (db : Db) (wfId : String) :
    (workflowCronsExist wf.id crons = true →
        ensureWorkflowCrons pre wf crons = some crons)
    ∧ (ensureWorkflowCrons pre wf crons = some c1 →
        ensureWorkflowCrons pre wf c1 = some c1)
    ∧ (countActiveRuns db wfId > 0 →
        teardownWorkflowCronsIfIdle db wfId crons = crons)
    ∧ (countActiveRuns db wfId = 0 →
        teardownWorkflowCronsIfIdle db wfId crons
          = crons.filter fun j => !(jsStartsWith j.name ("setfarm/" ++ wfId ++ "/"))) := by
  refine ⟨?_, ?_, ?_, ?_⟩
  · intro hex
    rw [ensureWorkflowCrons, if_pos hex]
  · intro h1
    by_cases hex : workflowCronsExist wf.id crons = true
    · rw [ensureWorkflowCrons, if_pos hex] at h1
      cases h1
      rw [ensureWorkflowCrons, if_pos hex]
    · rw [ensureWorkflowCrons, if_neg hex] at h1
      by_cases hpre : pre = true
      · rw [if_pos hpre] at h1
        cases h1
        rcases hjob : setupAgentCronJobs wf with _ | ⟨j0, rest⟩
        · have hc : setupAgentCrons wf crons = crons := by
            simp [setupAgentCrons, hjob]
          rw [hc, ensureWorkflowCrons, if_neg hex, if_pos hpre, hc]
        · have hj0 : j0 ∈ setupAgentCronJobs wf := by
            rw [hjob]; exact List.mem_cons_self _ _
          have hpj := setupAgentCronJobs_prefixed wf j0 hj0
          have hin : workflowCronsExist wf.id (setupAgentCrons wf crons) = true := by
            simp only [workflowCronsExist, setupAgentCrons, List.any_eq_true]
            refine ⟨⟨j0.name, j0.name⟩, ?_, hpj⟩
            exact List.mem_append_right _ (List.mem_map.mpr ⟨j0, hj0, rfl⟩)
          rw [ensureWorkflowCrons, if_pos hin]
      · rw [if_neg hpre] at h1
        cases h1
  · intro hact
    rw [teardownWorkflowCronsIfIdle, if_pos hact]
  · intro hact
    rw [teardownWorkflowCronsIfIdle, if_neg (by omega)]

/-- A two-role sample workflow for exercising the cron lifecycle. -/
def c8Wf : WorkflowSpec :=
  ⟨"wf", [⟨"planner", Option.none, Option.none, Option.none⟩,
          ⟨"developer", Option.none, Option.none, Option.none⟩],
   Option.none, Option.none, []⟩

/-- The jobs `setupAgentCrons c8Wf []` creates. -/
def c8Jobs : List CronJob :=
  [⟨"setfarm/wf/planner", "setfarm/wf/planner"⟩,
   ⟨"setfarm/wf/developer", "setfarm/wf/developer"⟩,
   ⟨"setfarm/wf/developer-2", "setfarm/wf/developer-2"⟩,
   ⟨"setfarm/wf/developer-3", "setfarm/wf/developer-3"⟩]

/-- A database with no running run of workflow `wf`. -/
def c8DbIdle : Db :=
  ⟨[⟨"r1", "wf", "t", "done", 0, 0, ⟨Option.none, Option.none⟩⟩], [], []⟩

/-- A database with a running run of workflow `wf`. -/
def c8DbAct : Db :=
  ⟨[⟨"r1", "wf", "t", "running", 0, 0, ⟨Option.none, Option.none⟩⟩], [], []⟩

/-- Witness for C8 at a concrete workflow, job list and database. -/
theorem cron_lifecycle_spec_witness :
    (ensureWorkflowCrons true c8Wf c8Jobs = some c8Jobs)
    ∧ (teardownWorkflowCronsIfIdle c8DbAct "wf" c8Jobs = c8Jobs)
    ∧ (teardownWorkflowCronsIfIdle c8DbIdle "wf" c8Jobs
        = c8Jobs.filter fun j => !(jsStartsWith j.name ("setfarm/" ++ "wf" ++ "/"))) :=
  ⟨(cron_lifecycle_spec true c8Wf [] c8Jobs c8DbIdle "wf").2.1 (by decide),
   (cron_lifecycle_spec true c8Wf c8Jobs c8Jobs c8DbAct "wf").2.2.1 (by decide),
   (cron_lifecycle_spec true c8Wf c8Jobs c8Jobs c8DbIdle "wf").2.2.2 (by decide)⟩

/-! ## Claim C6 — stalled runs are alert-only -/

/-- C6: every finding of the stalled-run check carries the action `none`,
and remediating it changes nothing — neither database nor cron state — and
reports no action taken (the medic runner additionally skips `none`-actions
before even calling `remediate`). -/
theorem stalled_runs_alert_only (env : MedicEnv) (mt now : Nat) (st : SysState)
    (f : Finding) (hf : f ∈ checkStalledRuns mt now st.db) :
    f.action = MedicAction.none ∧ remediate env now f st = (st, false) := by
  simp only [checkStalledRuns, List.mem_filterMap] at hf
  obtain ⟨r, _, hr⟩ := hf
  split at hr
  · cases hr
    exact ⟨rfl, rfl⟩
  · cases hr

/-- An environment with no reachable externals: `gh` unavailable, no
loadable workflow spec, failing cron preflight. -/
def envNone : MedicEnv := ⟨Option.none, fun _ => Option.none, false⟩

/-- A run with a single long-idle step, stalled at time `10 ^ 9`. -/
def c6Db : Db :=
  ⟨[⟨"r6", "wf", "t", "running", 0, 0, ⟨Option.none, Option.none⟩⟩],
   [⟨"s6", "r6", "plan", "planner", 0, "single", "running", 0, 0, 5, "", "",
     Option.none, Option.none⟩],
   []⟩

/-- Witness for C6 on a concrete stalled run. -/
theorem stalled_runs_alert_only_witness :
    stalledRunFinding ⟨"r6", "wf", "t", "running", 0, 0, ⟨Option.none, Option.none⟩⟩
        ∈ checkStalledRuns 60 1000000000 c6Db
    ∧ ((stalledRunFinding ⟨"r6", "wf", "t", "running", 0, 0,
          ⟨Option.none, Option.none⟩⟩).action = MedicAction.none
        ∧ remediate envNone 1000000000
            (stalledRunFinding ⟨"r6", "wf", "t", "running", 0, 0,
              ⟨Option.none, Option.none⟩⟩) ⟨c6Db, []⟩ = (⟨c6Db, []⟩, false)) :=
  ⟨by decide,
   stalled_runs_alert_only envNone 60 1000000000 ⟨c6Db, []⟩ _ (by decide)⟩

/-! ## Claim C7 — dead runs are marked failed -/

/-- C7: a run in status `running` with no step in
`{waiting, pending, running}` is reported by `checkDeadRuns` with action
`fail_run`, and remediation marks that run `failed`. -/
theorem dead_run_marked_failed (env : MedicEnv) (now : Nat) (st : SysState)
    (r : RunRow)
    (hfind : st.db.runs.find? (fun x => x.id == r.id) = some r)
    (hrs : r.status = "running")
    (hnone : (st.db.steps.any fun s =>
        s.run_id == r.id
        && (s.status == "waiting" || s.status == "pending"
            || s.status == "running")) = false) :
    deadRunFinding r ∈ checkDeadRuns st.db
    ∧ (remediate env now (deadRunFinding r) st).snd = true
    ∧ ((remediate env now (deadRunFinding r) st).fst.db.runs.find?
        fun x => x.id == r.id)
          = some { r with status := "failed", updated_at := now } := by
  have hmem : r ∈ st.db.runs := List.mem_of_find?_eq_some hfind
  refine ⟨?_, ?_, ?_⟩
  · simp only [checkDeadRuns, List.mem_filterMap]
    exact ⟨r, hmem, by simp [hrs, hnone]⟩
  · simp only [remediate, deadRunFinding]
    rw [hfind]
    simp [hrs]
  · simp only [remediate, deadRunFinding]
    rw [hfind]
    simp only [hrs, beq_self_eq_true, if_true, runs_updSteps]
    have hre := find?_updRuns_id st.db (fun x => x.id == r.id)
      (fun x => { x with status := "failed", updated_at := now })
      (fun x => rfl) r.id
    rw [hre, hfind]
    simp

/-- A zombie run: marked running, but its only step is terminal. -/
def c7Db : Db :=
  ⟨[⟨"r7", "wf", "t", "running", 0, 0, ⟨Option.none, Option.none⟩⟩],
   [⟨"s7", "r7", "plan", "planner", 0, "single", "failed", 0, 0, 5, "", "",
     Option.none, Option.none⟩],
   []⟩

/-- Witness for C7 on a concrete zombie run. -/
theorem dead_run_marked_failed_witness :
    deadRunFinding ⟨"r7", "wf", "t", "running", 0, 0, ⟨Option.none, Option.none⟩⟩
        ∈ checkDeadRuns c7Db
    ∧ (remediate envNone 999
        (deadRunFinding ⟨"r7", "wf", "t", "running", 0, 0,
          ⟨Option.none, Option.none⟩⟩) ⟨c7Db, []⟩).snd = true
    ∧ ((remediate envNone 999
        (deadRunFinding ⟨"r7", "wf", "t", "running", 0, 0,
          ⟨Option.none, Option.none⟩⟩) ⟨c7Db, []⟩).fst.db.runs.find?
            fun x => x.id == "r7")
          = some ⟨"r7", "wf", "t", "failed", 0, 999, ⟨Option.none, Option.none⟩⟩ :=
  dead_run_marked_failed envNone 999 ⟨c7Db, []⟩
    ⟨"r7", "wf", "t", "running", 0, 0, ⟨Option.none, Option.none⟩⟩
    (by decide) (by decide) (by decide)

/-! ## Claim C1 — stuck steps reset, bounded by 5 abandons -/

/-- C1: a step `running` inside a `running` run whose age exceeds
`max_role_timeout + 5min` is reported by `checkStuckSteps`; remediation
resets it to `pending` with `abandoned_count` incremented by 1, except that
when the incremented count reaches 5 the step is instead marked `failed`
(with an explanatory output) and its run is marked `failed`. -/
theorem stuck_step_reset (env : MedicEnv) (mt now : Nat) (st : SysState)
    (s : StepRow) (r : RunRow)
    (hfind : st.db.steps.find? (fun t => t.id == s.id) = some s)
    (hrun : st.db.runs.find? (fun x => x.id == s.run_id) = some r)
    (hss : s.status = "running") (hrs : r.status = "running")
    (hage : now - s.updated_at > maxRoleTimeoutMs mt) :
    stuckStepFinding s ∈ checkStuckSteps mt now st.db
    ∧ (s.abandoned_count + 1 < 5 →
        remediate env now (stuckStepFinding s) st
          = ({ st with
                db :=
                  updSteps (fun t => t.id == s.id)
                    (fun t => { t with
                      status := "pending",
                      abandoned_count := s.abandoned_count + 1,
                      updated_at := now }) st.db },
              true))
    ∧ (5 ≤ s.abandoned_count + 1 →
        remediate env now (stuckStepFinding s) st
          = ({ st with
                db :=
                  updRuns (fun x => x.id == s.run_id)
                    (fun x => { x with status := "failed", updated_at := now })
                    (updSteps (fun t => t.id == s.id)
                      (fun t => { t with
                        status := "failed",
                        output := "Medic: abandoned too many times",
                        abandoned_count := s.abandoned_count + 1,
                        updated_at := now }) st.db) },
              true)) := by
  have hmem : s ∈ st.db.steps := List.mem_of_find?_eq_some hfind
  refine ⟨?_, ?_, ?_⟩
  · simp only [checkStuckSteps, List.mem_filterMap]
    refine ⟨s, hmem, ?_⟩
    simp [hss, hage, runningRunOf, hrun, hrs]
  · intro hlt
    simp only [remediate, stuckStepFinding, hfind]
    rw [if_neg (show ¬(s.abandoned_count + 1 ≥ 5) by omega)]
  · intro hge
    simp only [remediate, stuckStepFinding, hfind]
    rw [if_pos (show s.abandoned_count + 1 ≥ 5 by omega)]

def c1Run : RunRow := ⟨"r1", "wf", "t", "running", 0, 0, ⟨Option.none, Option.none⟩⟩

/-- A stuck step with one prior abandon. -/
def c1Step : StepRow :=
  ⟨"s1", "r1", "impl", "developer", 1, "single", "running", 2, 1, 0, "", "",
   Option.none, Option.none⟩

/-- A stuck step with four prior abandons (the fifth hits the bound). -/
def c1Step4 : StepRow :=
  ⟨"s1", "r1", "impl", "developer", 1, "single", "running", 2, 4, 0, "", "",
   Option.none, Option.none⟩

def c1Db : Db := ⟨[c1Run], [c1Step], []⟩

def c1Db4 : Db := ⟨[c1Run], [c1Step4], []⟩

/-- Witness for C1: the reset branch at one prior abandon, and the
fail-step-and-run branch at four prior abandons. -/
theorem stuck_step_reset_witness :
    (stuckStepFinding c1Step ∈ checkStuckSteps 3600 1000000000 c1Db
      ∧ remediate envNone 1000000000 (stuckStepFinding c1Step) ⟨c1Db, []⟩
          = ({ (⟨c1Db, []⟩ : SysState) with
                db :=
                  updSteps (fun t => t.id == c1Step.id)
                    (fun t => { t with
                      status := "pending",
                      abandoned_count := c1Step.abandoned_count + 1,
                      updated_at := 1000000000 }) c1Db },
              true))
    ∧ (stuckStepFinding c1Step4 ∈ checkStuckSteps 3600 1000000000 c1Db4
      ∧ remediate envNone 1000000000 (stuckStepFinding c1Step4) ⟨c1Db4, []⟩
          = ({ (⟨c1Db4, []⟩ : SysState) with
                db :=
                  updRuns (fun x => x.id == c1Step4.run_id)
                    (fun x => { x with status := "failed", updated_at := 1000000000 })
                    (updSteps (fun t => t.id == c1Step4.id)
                      (fun t => { t with
                        status := "failed",
                        output := "Medic: abandoned too many times",
                        abandoned_count := c1Step4.abandoned_count + 1,
                        updated_at := 1000000000 }) c1Db4) },
              true)) :=
  ⟨⟨(stuck_step_reset envNone 3600 1000000000 ⟨c1Db, []⟩ c1Step c1Run
      (by decide) (by decide) (by decide) (by decide) (by decide)).1,
    (stuck_step_reset envNone 3600 1000000000 ⟨c1Db, []⟩ c1Step c1Run
      (by decide) (by decide) (by decide) (by decide) (by decide)).2.1 (by decide)⟩,
   ⟨(stuck_step_reset envNone 3600 1000000000 ⟨c1Db4, []⟩ c1Step4 c1Run
      (by decide) (by decide) (by decide) (by decide) (by decide)).1,
    (stuck_step_reset envNone 3600 1000000000 ⟨c1Db4, []⟩ c1Step4 c1Run
      (by decide) (by decide) (by decide) (by decide) (by decide)).2.2 (by decide)⟩⟩

/-! ## Claim C2 — orphaned stories reset, bounded by 5 abandons

The claim as stated is falsified by the Medic v6 PR guard: when a merged
GitHub PR matching the story is found, the story is auto-verified instead
of being reset (see C10).  The amended statement conditions on the guard
finding nothing. -/

/-- C2 (amended): a story `running` inside a `running` run for longer than
30 minutes is reported by `checkOrphanedStories`; when the GitHub merged-PR
guard finds no matching PR, remediation resets the story to `pending` with
`abandoned_count` incremented by 1 (clearing any loop step's
`current_story_id` pointing at it), except that when the incremented count
reaches 5 the story is set to `skipped` instead. -/
theorem orphaned_story_reset (env : MedicEnv) (now : Nat) (st : SysState)
    (t : StoryRow) (r : RunRow)
    (hfind1 : st.db.stories.find? (fun x => x.id == t.id) = some t)
    (hfind2 : st.db.stories.find?
        (fun x => x.id == t.id && x.status == "running") = some t)
    (hrun : st.db.runs.find? (fun x => x.id == t.run_id) = some r)
    (hts : t.status = "running") (hrs : r.status = "running")
    (hage : now - t.updated_at > STORY_STUCK_THRESHOLD_MS)
    (hguard : prGuardUrl env (some t) (some r) t = Option.none) :
    orphanedStoryFinding t ∈ checkOrphanedStories now st.db
    ∧ (t.abandoned_count + 1 < 5 →
        remediate env now (orphanedStoryFinding t) st
          = ({ st with
                db :=
                  updSteps
                    (fun s => s.run_id == t.run_id && s.typ == "loop"
                      && s.current_story_id == some t.id)
                    (fun s => { s with
                      current_story_id := Option.none,
                      updated_at := now })
                    (updStories (fun x => x.id == t.id)
                      (fun x => { x with
                        status := "pending",
                        abandoned_count := t.abandoned_count + 1,
                        updated_at := now }) st.db) },
              true))
    ∧ (5 ≤ t.abandoned_count + 1 →
        remediate env now (orphanedStoryFinding t) st
          = ({ st with
                db :=
                  updStories (fun x => x.id == t.id)
                    (fun x => { x with
                      status := "skipped",
                      abandoned_count := t.abandoned_count + 1,
                      output := "Medic: abandoned too many times",
                      updated_at := now }) st.db },
              true)) := by
  have hmem : t ∈ st.db.stories := List.mem_of_find?_eq_some hfind1
  refine ⟨?_, ?_, ?_⟩
  · simp only [checkOrphanedStories, List.mem_filterMap]
    refine ⟨t, hmem, ?_⟩
    simp [hts, hage, runningRunOf, hrun, hrs]
  · intro hlt
    simp only [remediate, orphanedStoryFinding, hfind2, hfind1, hrun, hguard]
    rw [if_neg (show ¬(t.abandoned_count + 1 ≥ 5) by omega)]
  · intro hge
    simp only [remediate, orphanedStoryFinding, hfind2, hfind1, hrun, hguard]
    rw [if_pos (show t.abandoned_count + 1 ≥ 5 by omega)]

/-- A run whose task names a GitHub repository. -/
def cvRun : RunRow :=
  ⟨"r2", "wf", "see https://github.com/acme/app", "running", 0, 0,
   ⟨Option.none, Option.none⟩⟩

/-- An orphaned story with one prior abandon, for which a merged PR exists. -/
def cvStory : StoryRow := ⟨"t2", "r2", "story_1", 0, "T", "running", "", "", 1, 0⟩

def cvLoopStep : StepRow :=
  ⟨"s2", "r2", "build", "developer", 1, "loop", "running", 0, 0, 0, "", "",
   some ⟨false, Option.none⟩, some "t2"⟩

def cvDb : Db := ⟨[cvRun], [cvLoopStep], [cvStory]⟩

/-- `gh` reports a merged PR whose branch equals the story id (lower-cased,
underscores replaced). -/
def envPR : MedicEnv :=
  ⟨some [⟨7, "https://github.com/acme/app/pull/7", "story-1"⟩],
   fun _ => Option.none, false⟩

/-- Counterexample to C2 as stated: the orphan condition holds, yet the
medic does NOT reset the story to `pending` with `abandoned_count + 1` —
the PR guard marks it `verified` with `abandoned_count = 0` instead. -/
theorem orphaned_story_reset_cex :
    orphanedStoryFinding cvStory ∈ checkOrphanedStories 1000000000 cvDb
    ∧ ¬((remediate envPR 1000000000 (orphanedStoryFinding cvStory)
          ⟨cvDb, []⟩).fst.db.stories.find? (fun x => x.id == "t2")
        = some { cvStory with
            status := "pending", abandoned_count := 2,
            updated_at := 1000000000 })
    ∧ ((remediate envPR 1000000000 (orphanedStoryFinding cvStory)
          ⟨cvDb, []⟩).fst.db.stories.find? (fun x => x.id == "t2")
        = some { cvStory with
            status := "verified", abandoned_count := 0,
            output := "STATUS: done\nPR_URL: https://github.com/acme/app/pull/7\nCHANGES: Auto-verified by Medic v6 — merged PR detected on GitHub",
            updated_at := 1000000000 }) := by
  decide

/-- An orphaned story with one prior abandon and no repo URL in the task. -/
def c2Run : RunRow := ⟨"r2", "wf", "plain task", "running", 0, 0, ⟨Option.none, Option.none⟩⟩

def c2Story : StoryRow := ⟨"t2", "r2", "story_1", 0, "T", "running", "", "", 1, 0⟩

def c2Story4 : StoryRow := ⟨"t2", "r2", "story_1", 0, "T", "running", "", "", 4, 0⟩

def c2Db : Db := ⟨[c2Run], [], [c2Story]⟩

def c2Db4 : Db := ⟨[c2Run], [], [c2Story4]⟩

/-- Witness for the amended C2: the reset branch at one prior abandon, and
the skip branch at four prior abandons. -/
theorem orphaned_story_reset_witness :
    (orphanedStoryFinding c2Story ∈ checkOrphanedStories 1000000000 c2Db
      ∧ remediate envNone 1000000000 (orphanedStoryFinding c2Story) ⟨c2Db, []⟩
          = ({ (⟨c2Db, []⟩ : SysState) with
                db :=
                  updSteps
                    (fun s => s.run_id == c2Story.run_id && s.typ == "loop"
                      && s.current_story_id == some c2Story.id)
                    (fun s => { s with
                      current_story_id := Option.none,
                      updated_at := 1000000000 })
                    (updStories (fun x => x.id == c2Story.id)
                      (fun x => { x with
                        status := "pending",
                        abandoned_count := c2Story.abandoned_count + 1,
                        updated_at := 1000000000 }) c2Db) },
              true))
    ∧ (orphanedStoryFinding c2Story4 ∈ checkOrphanedStories 1000000000 c2Db4
      ∧ remediate envNone 1000000000 (orphanedStoryFinding c2Story4) ⟨c2Db4, []⟩
          = ({ (⟨c2Db4, []⟩ : SysState) with
                db :=
                  updStories (fun x => x.id == c2Story4.id)
                    (fun x => { x with
                      status := "skipped",
                      abandoned_count := c2Story4.abandoned_count + 1,
                      output := "Medic: abandoned too many times",
                      updated_at := 1000000000 }) c2Db4 },
              true)) :=
  ⟨⟨(orphaned_story_reset envNone 1000000000 ⟨c2Db, []⟩ c2Story c2Run
      (by decide) (by decide) (by decide) (by decide) (by decide) (by decide)
      (by decide)).1,
    (orphaned_story_reset envNone 1000000000 ⟨c2Db, []⟩ c2Story c2Run
      (by decide) (by decide) (by decide) (by decide) (by decide) (by decide)
      (by decide)).2.1 (by decide)⟩,
   ⟨(orphaned_story_reset envNone 1000000000 ⟨c2Db4, []⟩ c2Story4 c2Run
      (by decide) (by decide) (by decide) (by decide) (by decide) (by decide)
      (by decide)).1,
    (orphaned_story_reset envNone 1000000000 ⟨c2Db4, []⟩ c2Story4 c2Run
      (by decide) (by decide) (by decide) (by decide) (by decide) (by decide)
      (by decide)).2.2 (by decide)⟩⟩

/-! ## Claim C10 — merged-PR guard auto-verifies instead of resetting -/

/-- C10: before resetting an orphaned story, the medic consults GitHub
(`extractRepoUrl` on the run's task, then `checkMergedPR` on the `gh`
result, which matches merged-PR branch names against the story id and the
run-id prefix); when a merged PR is found the story is marked `verified`
with `abandoned_count = 0` and the PR URL in its output, and any loop
step's `current_story_id` pointing at it is cleared — it is not reset to
`pending` or `skipped`. -/
theorem merged_pr_guard (env : MedicEnv) (now : Nat) (st : SysState)
    (t : StoryRow) (r : RunRow) (prUrl : String)
    (hfind1 : st.db.stories.find? (fun x => x.id == t.id) = some t)
    (hfind2 : st.db.stories.find?
        (fun x => x.id == t.id && x.status == "running") = some t)
    (hrun : st.db.runs.find? (fun x => x.id == t.run_id) = some r)
    (hts : t.status = "running") (hrs : r.status = "running")
    (hage : now - t.updated_at > STORY_STUCK_THRESHOLD_MS)
    (hguard : prGuardUrl env (some t) (some r) t = some prUrl) :
    orphanedStoryFinding t ∈ checkOrphanedStories now st.db
    ∧ remediate env now (orphanedStoryFinding t) st
        = ({ st with
              db :=
                updSteps
                  (fun s => s.run_id == t.run_id && s.typ == "loop"
                    && s.current_story_id == some t.id)
                  (fun s => { s with
                    current_story_id := Option.none,
                    updated_at := now })
                  (updStories (fun x => x.id == t.id)
                    (fun x => { x with
                      status := "verified", abandoned_count := 0,
                      output := "STATUS: done\nPR_URL: " ++ prUrl
                        ++ "\nCHANGES: Auto-verified by Medic v6 — merged PR detected on GitHub",
                      updated_at := now }) st.db) },
            true) := by
  have hmem : t ∈ st.db.stories := List.mem_of_find?_eq_some hfind1
  constructor
  · simp only [checkOrphanedStories, List.mem_filterMap]
    refine ⟨t, hmem, ?_⟩
    simp [hts, hage, runningRunOf, hrun, hrs]
  · simp only [remediate, orphanedStoryFinding, hfind2, hfind1, hrun, hguard]

/-- Witness for C10 at the concrete merged-PR state. -/
theorem merged_pr_guard_witness :
    orphanedStoryFinding cvStory ∈ checkOrphanedStories 1000000000 cvDb
    ∧ remediate envPR 1000000000 (orphanedStoryFinding cvStory) ⟨cvDb, []⟩
        = ({ (⟨cvDb, []⟩ : SysState) with
              db :=
                updSteps
                  (fun s => s.run_id == cvStory.run_id && s.typ == "loop"
                    && s.current_story_id == some cvStory.id)
                  (fun s => { s with
                    current_story_id := Option.none,
                    updated_at := 1000000000 })
                  (updStories (fun x => x.id == cvStory.id)
                    (fun x => { x with
                      status := "verified", abandoned_count := 0,
                      output := "STATUS: done\nPR_URL: "
                        ++ "https://github.com/acme/app/pull/7"
                        ++ "\nCHANGES: Auto-verified by Medic v6 — merged PR detected on GitHub",
                      updated_at := 1000000000 }) cvDb) },
            true) :=
  merged_pr_guard envPR 1000000000 ⟨cvDb, []⟩ cvStory cvRun
    "https://github.com/acme/app/pull/7"
    (by decide) (by decide) (by decide) (by decide) (by decide) (by decide)
    (by decide)

/-! ## Claim C5 — medic resume bound -/

/-- C5: for states where every run's recorded medic resume counter is at
most 3 (true initially: absent meta reads as 0) and run ids are unique, a
resume finding is produced only for a failed run whose counter is strictly
below `RESUME_MAX_ATTEMPTS = 3` and whose last medic resume lies more than
`RESUME_COOLDOWN_MS = 10` minutes in the past; remediating it keeps every
counter at most 3, and when the resume is performed the resumed run's
counter is incremented by exactly 1. -/
theorem medic_resume_bound (env : MedicEnv) (now : Nat) (st : SysState) (f : Finding)
    (hbound : ∀ r ∈ st.db.runs, resumeCountOf r ≤ 3)
    (huniq : ∀ r1 ∈ st.db.runs, ∀ r2 ∈ st.db.runs, r1.id = r2.id → r1 = r2)
    (hf : f ∈ checkFailedRunsForResume now st.db) :
    ∃ r, r ∈ st.db.runs ∧ f = resumeFinding r
      ∧ resumeCountOf r < RESUME_MAX_ATTEMPTS
      ∧ now - lastResumeOf r > RESUME_COOLDOWN_MS
      ∧ (∀ r2 ∈ (remediate env now f st).fst.db.runs, resumeCountOf r2 ≤ 3)
      ∧ ((remediate env now f st).snd = true →
          ∀ r2 ∈ (remediate env now f st).fst.db.runs, r2.id = r.id →
            resumeCountOf r2 = resumeCountOf r + 1) := by
  simp only [checkFailedRunsForResume, List.mem_filterMap] at hf
  obtain ⟨r, hrmem, hsome⟩ := hf
  refine ⟨r, hrmem, ?_⟩
  split at hsome
  case isFalse => cases hsome
  case isTrue hcond =>
  split at hsome
  case isTrue => cases hsome
  case isFalse hc2 =>
  split at hsome
  case isTrue => cases hsome
  case isFalse hc3 =>
  split at hsome
  case isTrue => cases hsome
  case isFalse hc4 =>
  cases hsome
  have hlt : resumeCountOf r < RESUME_MAX_ATTEMPTS := by
    simp only [RESUME_MAX_ATTEMPTS] at hc2 ⊢
    omega
  have hlt3 : resumeCountOf r < 3 := by
    simpa [RESUME_MAX_ATTEMPTS] using hlt
  have hlt4 : r.meta.medic_resume_count.getD 0 < 3 := by
    simpa [resumeCountOf] using hlt3
  have hcool : now - lastResumeOf r > RESUME_COOLDOWN_MS := by
    rcases Bool.not_eq_true _ |>.mp hc3 with h
    simp at h
    exact h
  have hstatus : r.status = "failed" := by
    have h1 := (Bool.and_eq_true _ _).mp hcond |>.1
    exact eq_of_beq h1
  have hfindr : st.db.runs.find?
      (fun x => x.id == r.id && x.status == "failed") = some r := by
    apply find?_eq_of_unique _ _ _ hrmem
    · simp [hstatus]
    · intro b hb hpb
      have hid : b.id = r.id := eq_of_beq ((Bool.and_eq_true _ _).mp hpb).1
      exact huniq b hb r hrmem hid
  have hmono : ∀ X : Db, X.runs = st.db.runs →
      ∀ r2 ∈ (updRuns (fun x => x.id == r.id)
          (fun x => { x with
            meta := { medic_resume_count := some (resumeCountOf r + 1),
                      medic_last_resume := some now } })
          (updRuns (fun x => x.id == r.id)
            (fun x => { x with status := "running", updated_at := now }) X)).runs,
        resumeCountOf r2 ≤ 3 ∧ (r2.id = r.id →
          resumeCountOf r2 = resumeCountOf r + 1) := by
    intro X hX r2 hr2
    simp only [updRuns, hX] at hr2
    obtain ⟨y, hy, rfl⟩ := List.mem_map.mp hr2
    obtain ⟨x, hx, rfl⟩ := List.mem_map.mp hy
    by_cases hid : (x.id == r.id) = true
    · rw [if_pos hid, if_pos (show
        (({ x with status := "running", updated_at := now } : RunRow).id == r.id)
          = true from hid)]
      exact ⟨by simp [resumeCountOf]; omega, fun _ => by simp [resumeCountOf]⟩
    · rw [if_neg hid, if_neg hid]
      refine ⟨hbound x hx, fun hideq => ?_⟩
      exact absurd (by simp [hideq] : (x.id == r.id) = true) hid
  refine ⟨rfl, hlt, hcool, ?_, ?_⟩
  · intro r2 hr2
    simp only [remediate, resumeFinding, hfindr] at hr2
    split at hr2
    case h_1 => exact hbound r2 hr2
    case h_2 fs heq =>
      revert hr2
      split
      case h_1 ls hls =>
        split
        case h_1 lc hlc =>
          split
          case isTrue =>
            intro hr2
            exact (hmono _ (by simp) r2 hr2).1
          case isFalse =>
            intro hr2
            exact (hmono _ rfl r2 hr2).1
        case h_2 =>
          intro hr2
          exact (hmono _ (runs_resumeElseBranch _ _ _ _) r2 hr2).1
      case h_2 =>
        intro hr2
        exact (hmono _ (runs_resumeElseBranch _ _ _ _) r2 hr2).1
  · intro hsnd r2 hr2 hid2
    simp only [remediate, resumeFinding, hfindr] at hr2
    split at hr2
    case h_1 heq =>
      simp only [remediate, resumeFinding, hfindr, heq] at hsnd
      cases hsnd
    case h_2 fs heq =>
      revert hr2
      split
      case h_1 ls hls =>
        split
        case h_1 lc hlc =>
          split
          case isTrue =>
            intro hr2
            exact (hmono _ (by simp) r2 hr2).2 hid2
          case isFalse =>
            intro hr2
            exact (hmono _ rfl r2 hr2).2 hid2
        case h_2 =>
          intro hr2
          exact (hmono _ (runs_resumeElseBranch _ _ _ _) r2 hr2).2 hid2
      case h_2 =>
        intro hr2
        exact (hmono _ (runs_resumeElseBranch _ _ _ _) r2 hr2).2 hid2

/-- A failed run with one prior medic resume, a pending story and a failed
step — a resumable candidate. -/
def c5Run : RunRow := ⟨"r5", "wf", "t", "failed", 0, 0, ⟨some 1, some 0⟩⟩

def c5Step : StepRow :=
  ⟨"s5", "r5", "impl", "developer", 0, "single", "failed", 3, 0, 0, "", "",
   Option.none, Option.none⟩

def c5Story : StoryRow := ⟨"t5", "r5", "a", 0, "T", "pending", "", "", 0, 0⟩

def c5Db : Db := ⟨[c5Run], [c5Step], [c5Story]⟩

/-- Witness for C5 at a concrete resumable run. -/
theorem medic_resume_bound_witness :
    ∃ r, r ∈ c5Db.runs ∧ resumeFinding c5Run = resumeFinding r
      ∧ resumeCountOf r < RESUME_MAX_ATTEMPTS
      ∧ 1000000000 - lastResumeOf r > RESUME_COOLDOWN_MS
      ∧ (∀ r2 ∈ (remediate envNone 1000000000 (resumeFinding c5Run)
            ⟨c5Db, []⟩).fst.db.runs, resumeCountOf r2 ≤ 3)
      ∧ ((remediate envNone 1000000000 (resumeFinding c5Run) ⟨c5Db, []⟩).snd = true →
          ∀ r2 ∈ (remediate envNone 1000000000 (resumeFinding c5Run)
              ⟨c5Db, []⟩).fst.db.runs, r2.id = r.id →
            resumeCountOf r2 = resumeCountOf r + 1) :=
  medic_resume_bound envNone 1000000000 ⟨c5Db, []⟩ (resumeFinding c5Run)
    (by decide) (by decide) (by decide)

/-! ## Claim C3 — abandoned_count monotonicity -/

/-- Claim C3's predicate, as stated: between two database snapshots, every
step's and story's `abandoned_count` (matched by id) is unchanged or
incremented by one. -/
def abandonedMonotoneB (db db2 : Db) : Bool :=
  (db2.steps.all fun s2 => db.steps.all fun s =>
    !(s.id == s2.id)
    || (s2.abandoned_count == s.abandoned_count
        || s2.abandoned_count == s.abandoned_count + 1))
  && (db2.stories.all fun t2 => db.stories.all fun t =>
    !(t.id == t2.id)
    || (t2.abandoned_count == t.abandoned_count
        || t2.abandoned_count == t.abandoned_count + 1))

def StepsAb (l0 l : List StepRow) : Prop :=
  ∀ s2 ∈ l, ∃ s ∈ l0, s2.id = s.id
    ∧ (s2.abandoned_count = s.abandoned_count
       ∨ s2.abandoned_count = s.abandoned_count + 1)

def StoriesAb (l0 l : List StoryRow) : Prop :=
  ∀ t2 ∈ l, ∃ t ∈ l0, t2.id = t.id
    ∧ (t2.abandoned_count = t.abandoned_count
       ∨ t2.abandoned_count = t.abandoned_count + 1
       ∨ (t2.abandoned_count = 0 ∧ t2.status = "verified"))

def StepsEqAb (l0 l : List StepRow) : Prop :=
  ∀ s2 ∈ l, ∃ s ∈ l0, s2.id = s.id ∧ s2.abandoned_count = s.abandoned_count

def StoriesEqAb (l0 l : List StoryRow) : Prop :=
  ∀ t2 ∈ l, ∃ t ∈ l0, t2.id = t.id ∧ t2.abandoned_count = t.abandoned_count

theorem stepsAb_rfl (l : List StepRow) : StepsAb l l :=
  fun s2 h => ⟨s2, h, rfl, Or.inl rfl⟩

theorem storiesAb_rfl (l : List StoryRow) : StoriesAb l l :=
  fun t2 h => ⟨t2, h, rfl, Or.inl rfl⟩

theorem stepsEqAb_rfl (l : List StepRow) : StepsEqAb l l :=
  fun s2 h => ⟨s2, h, rfl, rfl⟩

theorem storiesEqAb_rfl (l : List StoryRow) : StoriesEqAb l l :=
  fun t2 h => ⟨t2, h, rfl, rfl⟩

theorem stepsEqAb_map {l0 l : List StepRow} (prev : StepsEqAb l0 l)
    (p : StepRow → Bool) (g : StepRow → StepRow)
    (hg : ∀ s, (g s).id = s.id ∧ (g s).abandoned_count = s.abandoned_count) :
    StepsEqAb l0 (l.map fun s => if p s then g s else s) := by
  intro s2 h2
  obtain ⟨s, hs, rfl⟩ := List.mem_map.mp h2
  by_cases hp : p s = true
  · rw [if_pos hp]
    obtain ⟨s0, h0, hid, hc⟩ := prev s hs
    exact ⟨s0, h0, (hg s).1.trans hid, (hg s).2.trans hc⟩
  · rw [if_neg hp]
    exact prev s hs

theorem storiesEqAb_map {l0 l : List StoryRow} (prev : StoriesEqAb l0 l)
    (p : StoryRow → Bool) (g : StoryRow → StoryRow)
    (hg : ∀ t, (g t).id = t.id ∧ (g t).abandoned_count = t.abandoned_count) :
    StoriesEqAb l0 (l.map fun t => if p t then g t else t) := by
  intro t2 h2
  obtain ⟨t, ht, rfl⟩ := List.mem_map.mp h2
  by_cases hp : p t = true
  · rw [if_pos hp]
    obtain ⟨t0, h0, hid, hc⟩ := prev t ht
    exact ⟨t0, h0, (hg t).1.trans hid, (hg t).2.trans hc⟩
  · rw [if_neg hp]
    exact prev t ht

theorem stepsAb_of_eq {l0 l : List StepRow} (h : StepsEqAb l0 l) : StepsAb l0 l :=
  fun s2 h2 => (h s2 h2).imp fun _s ⟨hs, hid, hc⟩ => ⟨hs, hid, Or.inl hc⟩

theorem storiesAb_of_eq {l0 l : List StoryRow} (h : StoriesEqAb l0 l) :
    StoriesAb l0 l :=
  fun t2 h2 => (h t2 h2).imp fun _t ⟨ht, hid, hc⟩ => ⟨ht, hid, Or.inl hc⟩

theorem stepsAb_of_map {l : List StepRow} (p : StepRow → Bool)
    (g : StepRow → StepRow)
    (h : ∀ s ∈ l, p s = true → (g s).id = s.id
      ∧ ((g s).abandoned_count = s.abandoned_count
         ∨ (g s).abandoned_count = s.abandoned_count + 1)) :
    StepsAb l (l.map fun s => if p s then g s else s) := by
  intro s2 h2
  obtain ⟨s, hs, rfl⟩ := List.mem_map.mp h2
  by_cases hp : p s = true
  · rw [if_pos hp]
    exact ⟨s, hs, (h s hs hp).1, (h s hs hp).2⟩
  · rw [if_neg hp]
    exact ⟨s, hs, rfl, Or.inl rfl⟩

theorem storiesAb_of_map {l : List StoryRow} (p : StoryRow → Bool)
    (g : StoryRow → StoryRow)
    (h : ∀ t ∈ l, p t = true → (g t).id = t.id
      ∧ ((g t).abandoned_count = t.abandoned_count
         ∨ (g t).abandoned_count = t.abandoned_count + 1
         ∨ ((g t).abandoned_count = 0 ∧ (g t).status = "verified"))) :
    StoriesAb l (l.map fun t => if p t then g t else t) := by
  intro t2 h2
  obtain ⟨t, ht, rfl⟩ := List.mem_map.mp h2
  by_cases hp : p t = true
  · rw [if_pos hp]
    exact ⟨t, ht, (h t ht hp).1, (h t ht hp).2⟩
  · rw [if_neg hp]
    exact ⟨t, ht, rfl, Or.inl rfl⟩

theorem stepsEqAb_resumeElseBranch (now : Nat) (rid : String) (fs : StepRow)
    (db : Db) : StepsEqAb db.steps (resumeElseBranch now rid fs db).steps := by
  simp only [resumeElseBranch, updSteps]
  split
  · split
    · refine stepsEqAb_map (stepsEqAb_map (stepsEqAb_rfl _) _ _ ?_) _ _ ?_ <;>
        exact fun s => ⟨rfl, rfl⟩
    · refine stepsEqAb_map (stepsEqAb_map (stepsEqAb_rfl _) _ _ ?_) _ _ ?_ <;>
        exact fun s => ⟨rfl, rfl⟩
  · exact stepsEqAb_map (stepsEqAb_rfl _) _ _ fun s => ⟨rfl, rfl⟩

theorem storiesEqAb_resumeElseBranch (now : Nat) (rid : String) (fs : StepRow)
    (db : Db) :
    StoriesEqAb db.stories (resumeElseBranch now rid fs db).stories := by
  simp only [resumeElseBranch, updSteps, updStories]
  split
  · split
    · exact storiesEqAb_map (storiesEqAb_rfl _) _ _ fun t => ⟨rfl, rfl⟩
    · exact storiesEqAb_rfl _
  · exact storiesEqAb_rfl _

/-- The medic half of C3: every remediation leaves each step's
`abandoned_count` unchanged or incremented by 1, and each story's
`abandoned_count` unchanged or incremented by 1 — except that the Medic v6
PR guard sets a story's `abandoned_count` to 0 when it auto-verifies it
(the story's status becoming `verified`).  Ids are unique (they are primary
keys). -/
theorem abandoned_count_monotone (env : MedicEnv) (now : Nat) (f : Finding)
    (st : SysState)
    (hnds : (st.db.steps.map fun s => s.id).Nodup)
    (hndt : (st.db.stories.map fun t => t.id).Nodup) :
    StepsAb st.db.steps (remediate env now f st).fst.db.steps
    ∧ StoriesAb st.db.stories (remediate env now f st).fst.db.stories := by
  obtain ⟨chk, sev, msg, act, frid, fsid, ftid, fwid, frem⟩ := f
  cases act
  case reset_step =>
    cases fsid with
    | none => exact ⟨stepsAb_rfl _, storiesAb_rfl _⟩
    | some sid =>
      rcases hfd : st.db.steps.find? (fun s => s.id == sid) with _ | step0
      · simp only [remediate, hfd]
        exact ⟨stepsAb_rfl _, storiesAb_rfl _⟩
      · have hmem0 := List.mem_of_find?_eq_some hfd
        have hpred := List.find?_some hfd
        have hkey : ∀ s ∈ st.db.steps, (s.id == sid) = true →
            s.abandoned_count = step0.abandoned_count := by
          intro s hs hp
          have : s = step0 := List.inj_on_of_nodup_map hnds hs hmem0
            (by rw [eq_of_beq hp, eq_of_beq hpred])
          rw [this]
        simp only [remediate, hfd]
        split
        · cases frid with
          | none =>
            refine ⟨?_, storiesAb_rfl _⟩
            refine stepsAb_of_map _ _ fun s hs hp => ⟨rfl, Or.inr ?_⟩
            simp [hkey s hs hp]
          | some rid =>
            refine ⟨?_, storiesAb_rfl _⟩
            refine stepsAb_of_map _ _ fun s hs hp => ⟨rfl, Or.inr ?_⟩
            simp [hkey s hs hp]
        · refine ⟨?_, storiesAb_rfl _⟩
          refine stepsAb_of_map _ _ fun s hs hp => ⟨rfl, Or.inr ?_⟩
          simp [hkey s hs hp]
  case fail_run =>
    cases frid with
    | none => exact ⟨stepsAb_rfl _, storiesAb_rfl _⟩
    | some rid =>
      rcases hfd : st.db.runs.find? (fun r => r.id == rid) with _ | run
      · simp only [remediate, hfd]
        exact ⟨stepsAb_rfl _, storiesAb_rfl _⟩
      · simp only [remediate, hfd]
        split
        · refine ⟨?_, storiesAb_rfl _⟩
          refine stepsAb_of_eq (stepsEqAb_map (stepsEqAb_rfl _) _ _ ?_)
          exact fun s => ⟨rfl, rfl⟩
        · exact ⟨stepsAb_rfl _, storiesAb_rfl _⟩
  case resume_run =>
    cases frid with
    | none => exact ⟨stepsAb_rfl _, storiesAb_rfl _⟩
    | some rid =>
      rcases hfd : st.db.runs.find? (fun r => r.id == rid && r.status == "failed")
          with _ | run
      · simp only [remediate, hfd]
        exact ⟨stepsAb_rfl _, storiesAb_rfl _⟩
      · simp only [remediate, hfd]
        rcases hms : minByStepIndex (st.db.steps.filter fun s =>
            s.run_id == run.id && s.status == "failed") with _ | fs
        · simp only [hms]
          exact ⟨stepsAb_rfl _, storiesAb_rfl _⟩
        · simp only [hms]
          constructor
          · split
            · split
              · split
                · refine stepsAb_of_eq
                    (stepsEqAb_map (stepsEqAb_map (stepsEqAb_rfl _) _ _ ?_) _ _ ?_) <;>
                    exact fun s => ⟨rfl, rfl⟩
                · exact stepsAb_rfl _
              · exact stepsAb_of_eq (stepsEqAb_resumeElseBranch _ _ _ _)
            · exact stepsAb_of_eq (stepsEqAb_resumeElseBranch _ _ _ _)
          · split
            · split
              · split
                · refine storiesAb_of_eq
                    (storiesEqAb_map (storiesEqAb_rfl _) _ _ ?_)
                  exact fun t => ⟨rfl, rfl⟩
                · exact storiesAb_rfl _
              · exact storiesAb_of_eq (storiesEqAb_resumeElseBranch _ _ _ _)
            · exact storiesAb_of_eq (storiesEqAb_resumeElseBranch _ _ _ _)
  case teardown_crons =>
    rcases hpm : parseWorkflowFromMessage msg with _ | wfId
    · simp only [remediate, hpm]
      exact ⟨stepsAb_rfl _, storiesAb_rfl _⟩
    · simp only [remediate, hpm]
      exact ⟨stepsAb_rfl _, storiesAb_rfl _⟩
  case reset_story =>
    cases ftid with
    | none => exact ⟨stepsAb_rfl _, storiesAb_rfl _⟩
    | some tid =>
      rcases hfd : st.db.stories.find?
          (fun t => t.id == tid && t.status == "running") with _ | story0
      · simp only [remediate, hfd]
        exact ⟨stepsAb_rfl _, storiesAb_rfl _⟩
      · have hmem0 := List.mem_of_find?_eq_some hfd
        have hpred := List.find?_some hfd
        have hkey : ∀ t ∈ st.db.stories, (t.id == tid) = true →
            t.abandoned_count = story0.abandoned_count := by
          intro t ht hp
          have : t = story0 := List.inj_on_of_nodup_map hndt ht hmem0
            (by rw [eq_of_beq hp,
              eq_of_beq ((Bool.and_eq_true _ _).mp hpred).1])
          rw [this]
        simp only [remediate, hfd]
        rcases hg : prGuardUrl env (st.db.stories.find? fun t => t.id == tid)
            (st.db.runs.find? fun r => r.id == story0.run_id) story0
            with _ | prUrl
        · simp only [hg]
          split
          · refine ⟨stepsAb_rfl _, ?_⟩
            refine storiesAb_of_map _ _ fun t ht hp => ⟨rfl, Or.inr (Or.inl ?_)⟩
            simp [hkey t ht hp]
          · constructor
            · refine stepsAb_of_eq (stepsEqAb_map (stepsEqAb_rfl _) _ _ ?_)
              exact fun s => ⟨rfl, rfl⟩
            · refine storiesAb_of_map _ _ fun t ht hp => ⟨rfl, Or.inr (Or.inl ?_)⟩
              simp [hkey t ht hp]
        · simp only [hg]
          constructor
          · refine stepsAb_of_eq (stepsEqAb_map (stepsEqAb_rfl _) _ _ ?_)
            exact fun s => ⟨rfl, rfl⟩
          · exact storiesAb_of_map _ _ fun t ht hp =>
              ⟨rfl, Or.inr (Or.inr ⟨rfl, rfl⟩)⟩
  case recreate_crons =>
    rcases hw : fwid.orElse (fun _ => parseWorkflowFromMessage msg) with _ | wfId
    · simp only [remediate, hw]
      exact ⟨stepsAb_rfl _, storiesAb_rfl _⟩
    · simp only [remediate, hw]
      rcases hws : env.wfSpecs wfId with _ | wf
      · simp only [hws]
        exact ⟨stepsAb_rfl _, storiesAb_rfl _⟩
      · simp only [hws]
        exact ⟨stepsAb_rfl _, storiesAb_rfl _⟩
  case none => exact ⟨stepsAb_rfl _, storiesAb_rfl _⟩

/-- Counterexample to C3 as stated: remediating the orphaned story backed
by a merged PR drops its `abandoned_count` from 1 to 0. -/
theorem abandoned_count_monotone_cex :
    orphanedStoryFinding cvStory ∈ checkOrphanedStories 1000000000 cvDb
    ∧ abandonedMonotoneB cvDb
        (remediate envPR 1000000000 (orphanedStoryFinding cvStory)
          ⟨cvDb, []⟩).fst.db = false := by
  decide


/-! ## Claim C4 — retry_count discipline -/

/-- Claim C4's predicate, as stated: between two snapshots, a step's
`retry_count` drops to zero only if the step was in terminal `failed`. -/
def retryZeroOnlyFromFailedB (db db2 : Db) : Bool :=
  db2.steps.all fun s2 => db.steps.all fun s =>
    !(s.id == s2.id)
    || !(s2.retry_count == 0 && !(s.retry_count == 0))
    || (s.status == "failed")

def stepFrameOk (s s2 : StepRow) : Prop :=
  s2.run_id = s.run_id ∧ s2.step_id = s.step_id ∧ s2.agent_id = s.agent_id
  ∧ s2.step_index = s.step_index ∧ s2.typ = s.typ
  ∧ s2.retry_count = s.retry_count ∧ s2.input = s.input
  ∧ s2.output = s.output ∧ s2.loop_config = s.loop_config
  ∧ s2.current_story_id = s.current_story_id

def storyFrameOk (t t2 : StoryRow) : Prop :=
  t2.run_id = t.run_id ∧ t2.story_id = t.story_id
  ∧ t2.story_index = t.story_index ∧ t2.title = t.title
  ∧ t2.input = t.input ∧ t2.output = t.output

def StepsRetry (act : MedicAction) (l0 l : List StepRow) : Prop :=
  ∀ s2 ∈ l, ∃ s ∈ l0, s2.id = s.id
    ∧ (s2.retry_count = s.retry_count
       ∨ (act = MedicAction.resume_run ∧ s2.retry_count = 0
          ∧ (s.status = "failed" ∨ s.typ = "loop")))

def StepsEqRetry (l0 l : List StepRow) : Prop :=
  ∀ s2 ∈ l, ∃ s ∈ l0, s2.id = s.id ∧ s2.retry_count = s.retry_count

theorem stepsEqRetry_rfl (l : List StepRow) : StepsEqRetry l l :=
  fun s2 h => ⟨s2, h, rfl, rfl⟩

theorem stepsEqRetry_map {l0 l : List StepRow} (prev : StepsEqRetry l0 l)
    (p : StepRow → Bool) (g : StepRow → StepRow)
    (hg : ∀ s, (g s).id = s.id ∧ (g s).retry_count = s.retry_count) :
    StepsEqRetry l0 (l.map fun s => if p s then g s else s) := by
  intro s2 h2
  obtain ⟨s, hs, rfl⟩ := List.mem_map.mp h2
  by_cases hp : p s = true
  · rw [if_pos hp]
    obtain ⟨s0, h0, hid, hc⟩ := prev s hs
    exact ⟨s0, h0, (hg s).1.trans hid, (hg s).2.trans hc⟩
  · rw [if_neg hp]
    exact prev s hs

theorem stepsRetry_of_eq {act : MedicAction} {l0 l : List StepRow}
    (h : StepsEqRetry l0 l) : StepsRetry act l0 l :=
  fun s2 h2 => (h s2 h2).imp fun _s ⟨hs, hid, hc⟩ => ⟨hs, hid, Or.inl hc⟩

theorem minByStepIndex_mem : ∀ {l : List StepRow} {m : StepRow},
    minByStepIndex l = some m → m ∈ l := by
  intro l
  induction l with
  | nil => intro m h; cases h
  | cons a t ih =>
    intro m h
    rw [minByStepIndex] at h
    rcases hm : minByStepIndex t with _ | m0 <;> simp only [hm] at h
    · cases h
      exact List.mem_cons_self _ _
    · by_cases hlt : m0.step_index < a.step_index
      · rw [if_pos hlt] at h
        cases h
        exact List.mem_cons_of_mem _ (ih hm)
      · rw [if_neg hlt] at h
        cases h
        exact List.mem_cons_self _ _

theorem minByStoryIndex_mem : ∀ {l : List StoryRow} {m : StoryRow},
    minByStoryIndex l = some m → m ∈ l := by
  intro l
  induction l with
  | nil => intro m h; cases h
  | cons a t ih =>
    intro m h
    rw [minByStoryIndex] at h
    rcases hm : minByStoryIndex t with _ | m0 <;> simp only [hm] at h
    · cases h
      exact List.mem_cons_self _ _
    · by_cases hlt : m0.story_index < a.story_index
      · rw [if_pos hlt] at h
        cases h
        exact List.mem_cons_of_mem _ (ih hm)
      · rw [if_neg hlt] at h
        cases h
        exact List.mem_cons_self _ _

theorem stepsRetry_resumeElseBranch (now : Nat) (rid : String) (fs : StepRow)
    (db : Db) (hnd : (db.steps.map fun s => s.id).Nodup)
    (hfsm : fs ∈ db.steps) (hfsf : fs.status = "failed") :
    StepsRetry MedicAction.resume_run db.steps
      (resumeElseBranch now rid fs db).steps := by
  simp only [resumeElseBranch, updSteps]
  have hfinal : ∀ (l : List StepRow), StepsRetry MedicAction.resume_run db.steps l →
      StepsRetry MedicAction.resume_run db.steps
        (l.map fun s => if s.id == fs.id then
          { s with
            status := "pending", current_story_id := Option.none,
            retry_count := 0, updated_at := now } else s) := by
    intro l prev s2 h2
    obtain ⟨s, hs, rfl⟩ := List.mem_map.mp h2
    by_cases hp : (s.id == fs.id) = true
    · rw [if_pos hp]
      obtain ⟨s0, h0, hid, _⟩ := prev s hs
      have hs0 : s0 = fs := List.inj_on_of_nodup_map hnd h0 hfsm
        (by rw [← hid, eq_of_beq hp])
      exact ⟨s0, h0, hid, Or.inr ⟨rfl, rfl, Or.inl (hs0 ▸ hfsf)⟩⟩
    · rw [if_neg hp]
      exact prev s hs
  split
  · -- failed step is itself a loop step
    refine hfinal _ ?_
    have hmid : ∀ (X : Db), X.steps = db.steps →
        StepsRetry MedicAction.resume_run db.steps
          ((X.steps).map fun s => if s.run_id == rid && s.typ == "loop" then
            { s with retry_count := 0 } else s) := by
      intro X hX s2 h2
      rw [hX] at h2
      obtain ⟨s, hs, rfl⟩ := List.mem_map.mp h2
      by_cases hp : (s.run_id == rid && s.typ == "loop") = true
      · rw [if_pos hp]
        refine ⟨s, hs, rfl, Or.inr ⟨rfl, rfl, Or.inr ?_⟩⟩
        exact eq_of_beq ((Bool.and_eq_true _ _).mp hp).2
      · rw [if_neg hp]
        exact ⟨s, hs, rfl, Or.inl rfl⟩
    split
    · exact hmid _ rfl
    · exact hmid _ rfl
  · exact hfinal _ fun s2 h2 => ⟨s2, h2, rfl, Or.inl rfl⟩

theorem retry_scope_all (env : MedicEnv) (now : Nat) (f : Finding)
    (st : SysState)
    (hnds : (st.db.steps.map fun s => s.id).Nodup) :
    StepsRetry f.action st.db.steps (remediate env now f st).fst.db.steps := by
  obtain ⟨chk, sev, msg, act, frid, fsid, ftid, fwid, frem⟩ := f
  cases act
  case reset_step =>
    cases fsid with
    | none => exact stepsRetry_of_eq (stepsEqRetry_rfl _)
    | some sid =>
      rcases hfd : st.db.steps.find? (fun s => s.id == sid) with _ | step0
      · simp only [remediate, hfd]
        exact stepsRetry_of_eq (stepsEqRetry_rfl _)
      · simp only [remediate, hfd]
        split
        · cases frid with
          | none =>
            refine stepsRetry_of_eq (stepsEqRetry_map (stepsEqRetry_rfl _) _ _ ?_)
            exact fun s => ⟨rfl, rfl⟩
          | some rid =>
            refine stepsRetry_of_eq (stepsEqRetry_map (stepsEqRetry_rfl _) _ _ ?_)
            exact fun s => ⟨rfl, rfl⟩
        · refine stepsRetry_of_eq (stepsEqRetry_map (stepsEqRetry_rfl _) _ _ ?_)
          exact fun s => ⟨rfl, rfl⟩
  case fail_run =>
    cases frid with
    | none => exact stepsRetry_of_eq (stepsEqRetry_rfl _)
    | some rid =>
      rcases hfd : st.db.runs.find? (fun r => r.id == rid) with _ | run
      · simp only [remediate, hfd]
        exact stepsRetry_of_eq (stepsEqRetry_rfl _)
      · simp only [remediate, hfd]
        split
        · refine stepsRetry_of_eq (stepsEqRetry_map (stepsEqRetry_rfl _) _ _ ?_)
          exact fun s => ⟨rfl, rfl⟩
        · exact stepsRetry_of_eq (stepsEqRetry_rfl _)
  case resume_run =>
    cases frid with
    | none => exact stepsRetry_of_eq (stepsEqRetry_rfl _)
    | some rid =>
      rcases hfd : st.db.runs.find? (fun r => r.id == rid && r.status == "failed")
          with _ | run
      · simp only [remediate, hfd]
        exact stepsRetry_of_eq (stepsEqRetry_rfl _)
      · simp only [remediate, hfd]
        rcases hms : minByStepIndex (st.db.steps.filter fun s =>
            s.run_id == run.id && s.status == "failed") with _ | fs
        · simp only [hms]
          exact stepsRetry_of_eq (stepsEqRetry_rfl _)
        · simp only [hms]
          have hfsm : fs ∈ st.db.steps :=
            (List.mem_filter.mp (minByStepIndex_mem hms)).1
          have hfsf : fs.status = "failed" :=
            eq_of_beq ((Bool.and_eq_true _ _).mp
              (List.mem_filter.mp (minByStepIndex_mem hms)).2).2
          split
          case h_1 ls hls =>
            have hlsm : ls ∈ st.db.steps := List.mem_of_find?_eq_some hls
            have hlsl : ls.typ = "loop" := by
              have hp := List.find?_some hls
              exact eq_of_beq ((Bool.and_eq_true _ _).mp
                ((Bool.and_eq_true _ _).mp hp).1).2
            split
            case h_1 lc hlc =>
              split
              · -- verify-each reset: two step updates then a story update
                intro s2 h2
                simp only [updStories, updSteps] at h2
                obtain ⟨y, hy, rfl⟩ := List.mem_map.mp h2
                obtain ⟨x, hx, rfl⟩ := List.mem_map.mp hy
                by_cases h1 : (x.id == ls.id) = true
                · have hxls : x = ls :=
                    List.inj_on_of_nodup_map hnds hx hlsm (eq_of_beq h1)
                  rw [if_pos h1]
                  by_cases h2c :
                      ((({ x with
                          status := "pending", current_story_id := Option.none,
                          retry_count := 0, updated_at := now } : StepRow)).id
                        == fs.id) = true
                  · rw [if_pos h2c]
                    exact ⟨x, hx, rfl, Or.inr ⟨rfl, rfl, Or.inr (hxls ▸ hlsl)⟩⟩
                  · rw [if_neg h2c]
                    exact ⟨x, hx, rfl, Or.inr ⟨rfl, rfl, Or.inr (hxls ▸ hlsl)⟩⟩
                · rw [if_neg h1]
                  by_cases h2c : (x.id == fs.id) = true
                  · have hxfs : x = fs :=
                      List.inj_on_of_nodup_map hnds hx hfsm (eq_of_beq h2c)
                    rw [if_pos h2c]
                    exact ⟨x, hx, rfl, Or.inr ⟨rfl, rfl, Or.inl (hxfs ▸ hfsf)⟩⟩
                  · rw [if_neg h2c]
                    exact ⟨x, hx, rfl, Or.inl rfl⟩
              · exact stepsRetry_of_eq (stepsEqRetry_rfl _)
            case h_2 =>
              exact stepsRetry_resumeElseBranch now run.id fs st.db hnds hfsm hfsf
          case h_2 =>
            exact stepsRetry_resumeElseBranch now run.id fs st.db hnds hfsm hfsf
  case teardown_crons =>
    rcases hpm : parseWorkflowFromMessage msg with _ | wfId <;>
      simp only [remediate, hpm] <;>
      exact stepsRetry_of_eq (stepsEqRetry_rfl _)
  case reset_story =>
    cases ftid with
    | none => exact stepsRetry_of_eq (stepsEqRetry_rfl _)
    | some tid =>
      rcases hfd : st.db.stories.find?
          (fun t => t.id == tid && t.status == "running") with _ | story0
      · simp only [remediate, hfd]
        exact stepsRetry_of_eq (stepsEqRetry_rfl _)
      · simp only [remediate, hfd]
        rcases hg : prGuardUrl env (st.db.stories.find? fun t => t.id == tid)
            (st.db.runs.find? fun r => r.id == story0.run_id) story0
            with _ | prUrl
        · simp only [hg]
          split
          · exact stepsRetry_of_eq (stepsEqRetry_rfl _)
          · refine stepsRetry_of_eq (stepsEqRetry_map (stepsEqRetry_rfl _) _ _ ?_)
            exact fun s => ⟨rfl, rfl⟩
        · simp only [hg]
          refine stepsRetry_of_eq (stepsEqRetry_map (stepsEqRetry_rfl _) _ _ ?_)
          exact fun s => ⟨rfl, rfl⟩
  case recreate_crons =>
    rcases hw : fwid.orElse (fun _ => parseWorkflowFromMessage msg) with _ | wfId
    · simp only [remediate, hw]
      exact stepsRetry_of_eq (stepsEqRetry_rfl _)
    · simp only [remediate, hw]
      rcases hws : env.wfSpecs wfId with _ | wf <;> simp only [hws] <;>
        exact stepsRetry_of_eq (stepsEqRetry_rfl _)
  case none => exact stepsRetry_of_eq (stepsEqRetry_rfl _)

theorem frame_reset_step (env : MedicEnv) (now : Nat) (f : Finding)
    (st : SysState) (sid : String) (step0 : StepRow)
    (hact : f.action = MedicAction.reset_step)
    (hsid : f.stepId = some sid)
    (hfd : st.db.steps.find? (fun s => s.id == sid) = some step0)
    (hlt : step0.abandoned_count + 1 < 5) :
    ∀ s2 ∈ (remediate env now f st).fst.db.steps, ∃ s ∈ st.db.steps,
      s2.id = s.id ∧ stepFrameOk s s2 := by
  obtain ⟨chk, sev, msg, act, frid, fsid, ftid, fwid, frem⟩ := f
  subst hact
  subst hsid
  simp only [remediate, hfd]
  rw [if_neg (show ¬(step0.abandoned_count + 1 ≥ 5) by omega)]
  intro s2 h2
  simp only [updSteps] at h2
  obtain ⟨x, hx, rfl⟩ := List.mem_map.mp h2
  by_cases hp : (x.id == sid) = true
  · rw [if_pos hp]
    exact ⟨x, hx, rfl, rfl, rfl, rfl, rfl, rfl, rfl, rfl, rfl, rfl, rfl⟩
  · rw [if_neg hp]
    exact ⟨x, hx, rfl, rfl, rfl, rfl, rfl, rfl, rfl, rfl, rfl, rfl, rfl⟩

theorem frame_reset_story (env : MedicEnv) (now : Nat) (f : Finding)
    (st : SysState) (tid : String) (story0 : StoryRow)
    (hact : f.action = MedicAction.reset_story)
    (htid : f.storyId = some tid)
    (hfd : st.db.stories.find?
        (fun t => t.id == tid && t.status == "running") = some story0)
    (hguard : prGuardUrl env (st.db.stories.find? fun t => t.id == tid)
        (st.db.runs.find? fun r => r.id == story0.run_id) story0 = Option.none)
    (hlt : story0.abandoned_count + 1 < 5) :
    ∀ t2 ∈ (remediate env now f st).fst.db.stories, ∃ t ∈ st.db.stories,
      t2.id = t.id ∧ storyFrameOk t t2 := by
  obtain ⟨chk, sev, msg, act, frid, fsid, ftid, fwid, frem⟩ := f
  subst hact
  subst htid
  simp only [remediate, hfd, hguard]
  rw [if_neg (show ¬(story0.abandoned_count + 1 ≥ 5) by omega)]
  intro t2 h2
  simp only [updSteps, updStories] at h2
  obtain ⟨x, hx, rfl⟩ := List.mem_map.mp h2
  by_cases hp : (x.id == tid) = true
  · rw [if_pos hp]
    exact ⟨x, hx, rfl, rfl, rfl, rfl, rfl, rfl, rfl⟩
  · rw [if_neg hp]
    exact ⟨x, hx, rfl, rfl, rfl, rfl, rfl, rfl, rfl⟩

/-- C4 (amended): no medic reset of a stuck step or of an orphaned story
modifies any step's `retry_count`, and a reset changes only the reset
unit's `status`, `abandoned_count` and `updated_at`; `retry_count` is set
to zero only by an explicit medic resume of a failed run, which zeroes the
run's first failed step and its loop steps — a loop step it zeroes need not
itself be in `failed`. -/
theorem retry_reset_scope (env : MedicEnv) (now : Nat) (f : Finding)
    (st : SysState)
    (hnds : (st.db.steps.map fun s => s.id).Nodup) :
    StepsRetry f.action st.db.steps (remediate env now f st).fst.db.steps
    ∧ (∀ sid step0, f.action = MedicAction.reset_step → f.stepId = some sid →
        st.db.steps.find? (fun s => s.id == sid) = some step0 →
        step0.abandoned_count + 1 < 5 →
        ∀ s2 ∈ (remediate env now f st).fst.db.steps, ∃ s ∈ st.db.steps,
          s2.id = s.id ∧ stepFrameOk s s2)
    ∧ (∀ tid story0, f.action = MedicAction.reset_story →
        f.storyId = some tid →
        st.db.stories.find?
          (fun t => t.id == tid && t.status == "running") = some story0 →
        prGuardUrl env (st.db.stories.find? fun t => t.id == tid)
          (st.db.runs.find? fun r => r.id == story0.run_id) story0
            = Option.none →
        story0.abandoned_count + 1 < 5 →
        ∀ t2 ∈ (remediate env now f st).fst.db.stories, ∃ t ∈ st.db.stories,
          t2.id = t.id ∧ storyFrameOk t t2) :=
  ⟨retry_scope_all env now f st hnds,
   fun sid step0 hact hsid hfd hlt =>
     frame_reset_step env now f st sid step0 hact hsid hfd hlt,
   fun tid story0 hact htid hfd hg hlt =>
     frame_reset_story env now f st tid story0 hact htid hfd hg hlt⟩

/-- A failed run whose resume will zero the retry counter of a loop step
that is still `running`. -/
def c4Run : RunRow := ⟨"r4", "wf", "t", "failed", 0, 0, ⟨Option.none, Option.none⟩⟩

def c4Verify : StepRow :=
  ⟨"sv", "r4", "verify", "verifier", 3, "single", "failed", 3, 0, 0, "", "",
   Option.none, Option.none⟩

def c4Loop : StepRow :=
  ⟨"sl", "r4", "build", "developer", 2, "loop", "running", 2, 0, 0, "", "",
   some ⟨true, some "verify"⟩, some "tX"⟩

def c4Story : StoryRow := ⟨"tX", "r4", "s_x", 0, "T", "pending", "", "", 0, 0⟩

def c4Db : Db := ⟨[c4Run], [c4Verify, c4Loop], [c4Story]⟩

/-- Counterexample to C4 as stated: resuming the failed run zeroes the
`retry_count` of the loop step `sl`, whose status is `running`, not
`failed`. -/
theorem retry_reset_scope_cex :
    resumeFinding c4Run ∈ checkFailedRunsForResume 1000000000 c4Db
    ∧ retryZeroOnlyFromFailedB c4Db
        (remediate envNone 1000000000 (resumeFinding c4Run)
          ⟨c4Db, []⟩).fst.db = false := by
  decide

/-- Witness for the amended C4 at the concrete resume. -/
theorem retry_reset_scope_witness :
    StepsRetry (resumeFinding c4Run).action c4Db.steps
      (remediate envNone 1000000000 (resumeFinding c4Run)
        ⟨c4Db, []⟩).fst.db.steps
    ∧ (∀ sid step0, (resumeFinding c4Run).action = MedicAction.reset_step →
        (resumeFinding c4Run).stepId = some sid →
        c4Db.steps.find? (fun s => s.id == sid) = some step0 →
        step0.abandoned_count + 1 < 5 →
        ∀ s2 ∈ (remediate envNone 1000000000 (resumeFinding c4Run)
            ⟨c4Db, []⟩).fst.db.steps, ∃ s ∈ c4Db.steps,
          s2.id = s.id ∧ stepFrameOk s s2)
    ∧ (∀ tid story0, (resumeFinding c4Run).action = MedicAction.reset_story →
        (resumeFinding c4Run).storyId = some tid →
        c4Db.stories.find?
          (fun t => t.id == tid && t.status == "running") = some story0 →
        prGuardUrl envNone (c4Db.stories.find? fun t => t.id == tid)
          (c4Db.runs.find? fun r => r.id == story0.run_id) story0
            = Option.none →
        story0.abandoned_count + 1 < 5 →
        ∀ t2 ∈ (remediate envNone 1000000000 (resumeFinding c4Run)
            ⟨c4Db, []⟩).fst.db.stories, ∃ t ∈ c4Db.stories,
          t2.id = t.id ∧ storyFrameOk t t2) :=
  retry_reset_scope envNone 1000000000 (resumeFinding c4Run) ⟨c4Db, []⟩
    (by decide)

/-! ## Engine operations (spec-modelled) -/

/-- Modelled from the spec: the engine-side Store transactions of
§4.1–§4.4 — claim/complete/fail of a step, claim, completion, verify-retry
and terminal failure of a story, and the engine's `cleanupAbandonedSteps`
(the orphaned-story check's comments reference it) — are not under `src/`;
only the medic refers to them.  Each constructor carries the affected
unit's id: the claim protocol's selection order (§4.2) chooses the unit
but does not alter the transaction's effect on it.  Row creation
(`seed_run`, story materialisation from `STORIES_JSON`) inserts fresh rows
rather than mutating existing ones and so lies outside these counter
mutations. -/
inductive EngineOp where
  | claim_step (sid : String)
  | complete_step (sid : String) (out : String)
  | fail_step (sid : String)
  | claim_story (tid : String)
  | complete_story (tid : String) (out : String)
  | retry_story (tid : String)
  | fail_story (tid : String)
  | cleanup_abandoned_step (sid : String)
  deriving DecidableEq, Repr

/-- Modelled from the spec: the effect of each engine transaction.  §4.2:
a claim stamps the unit `running` with `updated_at = now`; a completion
stores the output, marks the step `done` (story `verified`) and advances
the cursor — the next step by `step_index` becomes `pending`, or the run
becomes `done`; a step failure increments `retry_count`, returning the
step to `pending` below the default budget of 3 and otherwise failing the
step and its run.  §4.4: a per-story verify failure returns the story to
`pending`; a terminal story failure marks it `failed`.
`cleanupAbandonedSteps` resets a loop step's abandoned current story to
`pending` with `abandoned_count` incremented and clears the step's
pointer.  No other transaction touches `abandoned_count`: invariant 5
reserves it for abandonment resets, distinct from agent-reported
failures. -/
def engineApply (now : Nat) (op : EngineOp) (db : Db) : Db :=
  match op with
  | EngineOp.claim_step sid =>
    updSteps
      (fun s => s.id == sid && s.status == "pending" && runningRunOf db s.run_id)
      (fun s => { s with status := "running", updated_at := now }) db
  | EngineOp.complete_step sid out =>
    match db.steps.find? (fun s => s.id == sid && s.status == "running") with
    | Option.none => db
    | some s =>
      let db1 := updSteps (fun x => x.id == sid)
        (fun x => { x with status := "done", output := out, updated_at := now }) db
      match minByStepIndex (db1.steps.filter fun x =>
          x.run_id == s.run_id && s.step_index < x.step_index) with
      | some nx =>
        updSteps (fun x => x.id == nx.id)
          (fun x => { x with status := "pending", updated_at := now }) db1
      | Option.none =>
        updRuns (fun r => r.id == s.run_id)
          (fun r => { r with status := "done", updated_at := now }) db1
  | EngineOp.fail_step sid =>
    match db.steps.find? (fun s => s.id == sid && s.status == "running") with
    | Option.none => db
    | some s =>
      if s.retry_count + 1 < 3 then
        updSteps (fun x => x.id == sid)
          (fun x => { x with
            status := "pending", retry_count := x.retry_count + 1,
            updated_at := now }) db
      else
        updRuns (fun r => r.id == s.run_id)
          (fun r => { r with status := "failed", updated_at := now })
          (updSteps (fun x => x.id == sid)
            (fun x => { x with
              status := "failed", retry_count := x.retry_count + 1,
              updated_at := now }) db)
  | EngineOp.claim_story tid =>
    updStories (fun t => t.id == tid && t.status == "pending")
      (fun t => { t with status := "running", updated_at := now }) db
  | EngineOp.complete_story tid out =>
    updStories (fun t => t.id == tid && t.status == "running")
      (fun t => { t with status := "verified", output := out, updated_at := now }) db
  | EngineOp.retry_story tid =>
    updStories (fun t => t.id == tid && t.status == "running")
      (fun t => { t with status := "pending", updated_at := now }) db
  | EngineOp.fail_story tid =>
    updStories (fun t => t.id == tid && t.status == "running")
      (fun t => { t with status := "failed", updated_at := now }) db
  | EngineOp.cleanup_abandoned_step sid =>
    match db.steps.find? (fun s => s.id == sid && s.typ == "loop") with
    | Option.none => db
    | some s =>
      match s.current_story_id with
      | Option.none => db
      | some tid =>
        updSteps (fun x => x.id == sid)
          (fun x => { x with current_story_id := Option.none, updated_at := now })
          (updStories (fun t => t.id == tid && t.status == "running")
            (fun t => { t with
              status := "pending", abandoned_count := t.abandoned_count + 1,
              updated_at := now }) db)

/-- An operation of the system: a medic remediation or an engine
transaction. -/
inductive Operation where
  | medic (f : Finding)
  | engine (op : EngineOp)

/-- One system operation as a state transition (the medic side from the
source, the engine side modelled from the spec). -/
def applyOp (env : MedicEnv) (now : Nat) (op : Operation) (st : SysState) :
    SysState :=
  match op with
  | Operation.medic f => (remediate env now f st).fst
  | Operation.engine e => { st with db := engineApply now e st.db }

/-- Every engine transaction preserves or increments each
`abandoned_count` (only the cleanup's abandonment reset increments, by
exactly 1). -/
theorem engine_abandoned_monotone (now : Nat) (op : EngineOp) (db : Db) :
    StepsAb db.steps (engineApply now op db).steps
    ∧ StoriesAb db.stories (engineApply now op db).stories := by
  cases op with
  | claim_step sid =>
    refine ⟨?_, storiesAb_rfl _⟩
    refine stepsAb_of_eq (stepsEqAb_map (stepsEqAb_rfl _) _ _ ?_)
    exact fun s => ⟨rfl, rfl⟩
  | complete_step sid out =>
    rcases hfd : db.steps.find?
        (fun s => s.id == sid && s.status == "running") with _ | s
    · simp only [engineApply, hfd]
      exact ⟨stepsAb_rfl _, storiesAb_rfl _⟩
    · simp only [engineApply, hfd]
      split
      · refine ⟨?_, storiesAb_rfl _⟩
        refine stepsAb_of_eq
          (stepsEqAb_map (stepsEqAb_map (stepsEqAb_rfl _) _ _ ?_) _ _ ?_) <;>
          exact fun x => ⟨rfl, rfl⟩
      · refine ⟨?_, storiesAb_rfl _⟩
        refine stepsAb_of_eq (stepsEqAb_map (stepsEqAb_rfl _) _ _ ?_)
        exact fun x => ⟨rfl, rfl⟩
  | fail_step sid =>
    rcases hfd : db.steps.find?
        (fun s => s.id == sid && s.status == "running") with _ | s
    · simp only [engineApply, hfd]
      exact ⟨stepsAb_rfl _, storiesAb_rfl _⟩
    · simp only [engineApply, hfd]
      split
      · refine ⟨?_, storiesAb_rfl _⟩
        refine stepsAb_of_eq (stepsEqAb_map (stepsEqAb_rfl _) _ _ ?_)
        exact fun x => ⟨rfl, rfl⟩
      · refine ⟨?_, storiesAb_rfl _⟩
        refine stepsAb_of_eq (stepsEqAb_map (stepsEqAb_rfl _) _ _ ?_)
        exact fun x => ⟨rfl, rfl⟩
  | claim_story tid =>
    refine ⟨stepsAb_rfl _, ?_⟩
    refine storiesAb_of_eq (storiesEqAb_map (storiesEqAb_rfl _) _ _ ?_)
    exact fun t => ⟨rfl, rfl⟩
  | complete_story tid out =>
    refine ⟨stepsAb_rfl _, ?_⟩
    refine storiesAb_of_eq (storiesEqAb_map (storiesEqAb_rfl _) _ _ ?_)
    exact fun t => ⟨rfl, rfl⟩
  | retry_story tid =>
    refine ⟨stepsAb_rfl _, ?_⟩
    refine storiesAb_of_eq (storiesEqAb_map (storiesEqAb_rfl _) _ _ ?_)
    exact fun t => ⟨rfl, rfl⟩
  | fail_story tid =>
    refine ⟨stepsAb_rfl _, ?_⟩
    refine storiesAb_of_eq (storiesEqAb_map (storiesEqAb_rfl _) _ _ ?_)
    exact fun t => ⟨rfl, rfl⟩
  | cleanup_abandoned_step sid =>
    rcases hfd : db.steps.find? (fun s => s.id == sid && s.typ == "loop")
        with _ | s
    · simp only [engineApply, hfd]
      exact ⟨stepsAb_rfl _, storiesAb_rfl _⟩
    · simp only [engineApply, hfd]
      rcases hcs : s.current_story_id with _ | tid
      · simp only [hcs]
        exact ⟨stepsAb_rfl _, storiesAb_rfl _⟩
      · simp only [hcs]
        constructor
        · refine stepsAb_of_eq (stepsEqAb_map (stepsEqAb_rfl _) _ _ ?_)
          exact fun x => ⟨rfl, rfl⟩
        · exact storiesAb_of_map _ _ fun t ht hp => ⟨rfl, Or.inr (Or.inl rfl)⟩

/-- C3 (amended): `abandoned_count` never decreases under any system
operation — every engine transaction and every medic remediation leaves
each step's and each story's `abandoned_count` unchanged or increments it
by 1 — except that the medic's PR guard sets a story's `abandoned_count`
to 0 when it auto-verifies the story (its status becoming `verified`). -/
theorem abandoned_count_monotone_all (env : MedicEnv) (now : Nat)
    (op : Operation) (st : SysState)
    (hnds : (st.db.steps.map fun s => s.id).Nodup)
    (hndt : (st.db.stories.map fun t => t.id).Nodup) :
    StepsAb st.db.steps (applyOp env now op st).db.steps
    ∧ StoriesAb st.db.stories (applyOp env now op st).db.stories := by
  cases op with
  | medic f => exact abandoned_count_monotone env now f st hnds hndt
  | engine e => exact engine_abandoned_monotone now e st.db

/-- A running loop step pointing at a running story that has already been
abandoned twice — input for the engine-side cleanup. -/
def c3Run : RunRow := ⟨"r3", "wf", "t", "running", 0, 0, ⟨Option.none, Option.none⟩⟩

def c3Loop : StepRow :=
  ⟨"s3", "r3", "build", "developer", 1, "loop", "running", 0, 0, 0, "", "",
   some ⟨false, Option.none⟩, some "t3"⟩

def c3Story : StoryRow := ⟨"t3", "r3", "story_3", 0, "T", "running", "", "", 2, 0⟩

def c3Db : Db := ⟨[c3Run], [c3Loop], [c3Story]⟩

/-- Witness for the amended C3: a medic story reset and an engine
`cleanupAbandonedSteps`, each at a concrete state. -/
theorem abandoned_count_monotone_all_witness :
    (StepsAb c2Db.steps
        (applyOp envNone 1000000000
          (Operation.medic (orphanedStoryFinding c2Story)) ⟨c2Db, []⟩).db.steps
      ∧ StoriesAb c2Db.stories
        (applyOp envNone 1000000000
          (Operation.medic (orphanedStoryFinding c2Story)) ⟨c2Db, []⟩).db.stories)
    ∧ (StepsAb c3Db.steps
        (applyOp envNone 1000000000
          (Operation.engine (EngineOp.cleanup_abandoned_step "s3"))
          ⟨c3Db, []⟩).db.steps
      ∧ StoriesAb c3Db.stories
        (applyOp envNone 1000000000
          (Operation.engine (EngineOp.cleanup_abandoned_step "s3"))
          ⟨c3Db, []⟩).db.stories) :=
  ⟨abandoned_count_monotone_all envNone 1000000000
      (Operation.medic (orphanedStoryFinding c2Story)) ⟨c2Db, []⟩
      (by decide) (by decide),
   abandoned_count_monotone_all envNone 1000000000
      (Operation.engine (EngineOp.cleanup_abandoned_step "s3")) ⟨c3Db, []⟩
      (by decide) (by decide)⟩

end Setfarm
